import Mathlib

/-!
# tanglesd: the image ingestion pipeline and the update feed walker

A shallow embedding of `images.go` (`processImage`) and `version.go`
(`getVersionsSince`), with the standard-library primitives they call
(`crypto/sha256`, `encoding/hex`, `hash/crc32`, `encoding/binary`), followed
by the theorems about them.

Conventions: a Go `[]byte` is a `List Nat` whose elements are read modulo 256,
a `uint32` is a `Nat` reduced modulo `2^32` wherever the Go operation can
overflow, and a Go `(value, error)` result is a pair whose second component is
`none` for a nil error.
-/

namespace Tanglesd

/-- A Go byte slice; every element is read modulo 256. -/
abbrev Bytes := List Nat

/-- A non-nil Go `error` value. -/
structure GoError where
  msg : String
deriving DecidableEq, Repr

/-! ## encoding/hex -/

namespace hex

/-- The lookup string of `encoding/hex`: `const hextable = "0123456789abcdef"`. -/
def hextable : List Char :=
  ['0', '1', '2', '3', '4', '5', '6', '7', '8', '9', 'a', 'b', 'c', 'd', 'e', 'f']

/-- The two characters `hextable[v>>4]`, `hextable[v&0x0f]` written for one byte. -/
def encodeByte (v : Nat) : List Char :=
  [hextable.getD ((v % 256) >>> 4) '0', hextable.getD ((v % 256) &&& 0x0f) '0']

/-- The function `hex.Encode`, as a list of characters. -/
def Encode : Bytes → List Char
  | [] => []
  | v :: rest => encodeByte v ++ Encode rest

/-- The function `hex.EncodeToString`. -/
def EncodeToString (src : Bytes) : String :=
  String.mk (Encode src)

end hex

/-! ## crypto/sha256 (FIPS 180-4) -/

namespace sha256

/-- The round constants `_K`. -/
def K : List Nat :=
  [0x428a2f98, 0x71374491, 0xb5c0fbcf, 0xe9b5dba5, 0x3956c25b, 0x59f111f1, 0x923f82a4, 0xab1c5ed5,
   0xd807aa98, 0x12835b01, 0x243185be, 0x550c7dc3, 0x72be5d74, 0x80deb1fe, 0x9bdc06a7, 0xc19bf174,
   0xe49b69c1, 0xefbe4786, 0x0fc19dc6, 0x240ca1cc, 0x2de92c6f, 0x4a7484aa, 0x5cb0a9dc, 0x76f988da,
   0x983e5152, 0xa831c66d, 0xb00327c8, 0xbf597fc7, 0xc6e00bf3, 0xd5a79147, 0x06ca6351, 0x14292967,
   0x27b70a85, 0x2e1b2138, 0x4d2c6dfc, 0x53380d13, 0x650a7354, 0x766a0abb, 0x81c2c92e, 0x92722c85,
   0xa2bfe8a1, 0xa81a664b, 0xc24b8b70, 0xc76c51a3, 0xd192e819, 0xd6990624, 0xf40e3585, 0x106aa070,
   0x19a4c116, 0x1e376c08, 0x2748774c, 0x34b0bcb5, 0x391c0cb3, 0x4ed8aa4a, 0x5b9cca4f, 0x682e6ff3,
   0x748f82ee, 0x78a5636f, 0x84c87814, 0x8cc70208, 0x90befffa, 0xa4506ceb, 0xbef9a3f7, 0xc67178f2]

/-- The eight chaining words `h[0..7]` of a digest. -/
structure State where
  h0 : Nat
  h1 : Nat
  h2 : Nat
  h3 : Nat
  h4 : Nat
  h5 : Nat
  h6 : Nat
  h7 : Nat
deriving DecidableEq, Repr

/-- The initial chaining value `init0 .. init7`. -/
def init : State :=
  ⟨0x6a09e667, 0xbb67ae85, 0x3c6ef372, 0xa54ff53a, 0x510e527f, 0x9b05688c, 0x1f83d9ab, 0x5be0cd19⟩

/-- Addition of `uint32` values. -/
def add32 (a b : Nat) : Nat := (a + b) % 2 ^ 32

/-- The function `bits.RotateLeft32(x, -n)`: rotate a 32-bit word right by `n`. -/
def rotr (x n : Nat) : Nat :=
  (((x % 2 ^ 32) >>> n) ||| ((x % 2 ^ 32) <<< (32 - n))) % 2 ^ 32

/-- The word of four big-endian bytes starting at byte `4 * j` of a block. -/
def wordAt (p : Bytes) (j : Nat) : Nat :=
  ((p.getD (4 * j) 0 % 256) <<< 24) ||| ((p.getD (4 * j + 1) 0 % 256) <<< 16)
    ||| ((p.getD (4 * j + 2) 0 % 256) <<< 8) ||| (p.getD (4 * j + 3) 0 % 256)

/-- One more word of the message schedule: with `i = w.length`,
`w[i] = σ1(w[i-2]) + w[i-7] + σ0(w[i-15]) + w[i-16]`. -/
def nextW (w : List Nat) : Nat :=
  let i := w.length
  let v1 := w.getD (i - 2) 0
  let t1 := rotr v1 17 ^^^ rotr v1 19 ^^^ (v1 >>> 10)
  let v2 := w.getD (i - 15) 0
  let t2 := rotr v2 7 ^^^ rotr v2 18 ^^^ (v2 >>> 3)
  add32 (add32 (add32 t1 (w.getD (i - 7) 0)) t2) (w.getD (i - 16) 0)

/-- Extend the schedule by `n` words. -/
def extendW : Nat → List Nat → List Nat
  | 0, w => w
  | n + 1, w => extendW n (w ++ [nextW w])

/-- The 64-word message schedule of one 64-byte block. -/
def schedule (p : Bytes) : List Nat :=
  extendW 48 ((List.range 16).map (wordAt p))

/-- One round of the compression function with round constant `k` and schedule word `w`. -/
def round (s : State) (k w : Nat) : State :=
  let t1 := add32 (add32 (add32 (add32 s.h7
      (rotr s.h4 6 ^^^ rotr s.h4 11 ^^^ rotr s.h4 25))
      ((s.h4 &&& s.h5) ^^^ ((s.h4 ^^^ 0xffffffff) &&& s.h6))) k) w
  let t2 := add32 (rotr s.h0 2 ^^^ rotr s.h0 13 ^^^ rotr s.h0 22)
      ((s.h0 &&& s.h1) ^^^ (s.h0 &&& s.h2) ^^^ (s.h1 &&& s.h2))
  ⟨add32 t1 t2, s.h0, s.h1, s.h2, add32 s.h3 t1, s.h4, s.h5, s.h6⟩

/-- The 64 rounds over the paired constants and schedule words. -/
def rounds : State → List (Nat × Nat) → State
  | s, [] => s
  | s, (k, w) :: rest => rounds (round s k w) rest

/-- The function `blockGeneric` on a single 64-byte block. -/
def block (s : State) (p : Bytes) : State :=
  let r := rounds s (K.zip (schedule p))
  ⟨add32 s.h0 r.h0, add32 s.h1 r.h1, add32 s.h2 r.h2, add32 s.h3 r.h3,
   add32 s.h4 r.h4, add32 s.h5 r.h5, add32 s.h6 r.h6, add32 s.h7 r.h7⟩

/-- Run `block` over `n` consecutive 64-byte blocks of `p`. -/
def blocks : Nat → State → Bytes → State
  | 0, s, _ => s
  | n + 1, s, p => blocks n (block s (p.take 64)) (p.drop 64)

/-- The padding appended by `checkSum`: `0x80`, zeros up to 56 modulo 64, and
the message length in bits as eight big-endian bytes. -/
def padding (len : Nat) : Bytes :=
  let bits := (len * 8) % 2 ^ 64
  0x80 :: List.replicate ((64 - (len + 9) % 64) % 64) 0 ++
    [(bits >>> 56) % 256, (bits >>> 48) % 256, (bits >>> 40) % 256, (bits >>> 32) % 256,
     (bits >>> 24) % 256, (bits >>> 16) % 256, (bits >>> 8) % 256, bits % 256]

/-- The four big-endian bytes of a `uint32` (`binary.BigEndian.PutUint32`). -/
def putUint32 (x : Nat) : Bytes :=
  [(x >>> 24) % 256, (x >>> 16) % 256, (x >>> 8) % 256, x % 256]

/-- The 32 digest bytes of a chaining value. -/
def stateBytes (s : State) : Bytes :=
  putUint32 s.h0 ++ putUint32 s.h1 ++ putUint32 s.h2 ++ putUint32 s.h3 ++
  putUint32 s.h4 ++ putUint32 s.h5 ++ putUint32 s.h6 ++ putUint32 s.h7

/-- The function `sha256.Sum256`: the SHA-256 checksum of the data. -/
def Sum256 (data : Bytes) : Bytes :=
  let m := data ++ padding data.length
  stateBytes (blocks (m.length / 64) init m)

/-- A `sha256.digest`: the bytes written so far. -/
structure digest where
  written : Bytes
deriving DecidableEq, Repr

/-- The function `sha256.New`. -/
def New : digest := ⟨[]⟩

/-- The method `(*digest).Write`: it absorbs `p`, reports `len(p)` bytes
written and never returns an error. -/
def digest.Write (d : digest) (p : Bytes) : digest × Nat × Option GoError :=
  (⟨d.written ++ p⟩, p.length, none)

/-- The method `(*digest).Sum`: `in` followed by the checksum of what was written. -/
def digest.Sum (d : digest) (b : Bytes) : Bytes :=
  b ++ Sum256 d.written

end sha256

/-! ## hash/crc32 and encoding/binary -/

namespace crc32

/-- The constant `crc32.Castagnoli`. -/
def Castagnoli : Nat := 0x82f63b78

/-- The inner loop of `simplePopulateTable`: `j` shift-and-xor steps. -/
def tableEntry (poly : Nat) : Nat → Nat → Nat
  | 0, crc => crc
  | j + 1, crc =>
    tableEntry poly j (if crc &&& 1 = 1 then (crc >>> 1) ^^^ poly else crc >>> 1)

/-- The function `crc32.MakeTable` (`simpleMakeTable`): the 256-entry table of a polynomial. -/
def MakeTable (poly : Nat) : List Nat :=
  (List.range 256).map fun i => tableEntry poly 8 i

/-- The loop of `simpleUpdate`: `crc = tab[byte(crc)^v] ^ (crc >> 8)` for each byte. -/
def updateLoop (tab : List Nat) : Nat → Bytes → Nat
  | crc, [] => crc
  | crc, v :: rest =>
    updateLoop tab (tab.getD ((crc % 256) ^^^ (v % 256)) 0 ^^^ (crc >>> 8)) rest

/-- The function `crc32.Update` (`simpleUpdate`), with `^crc` as xor with `0xffffffff`. -/
def Update (crc : Nat) (tab : List Nat) (p : Bytes) : Nat :=
  (updateLoop tab ((crc % 2 ^ 32) ^^^ 0xffffffff) p % 2 ^ 32) ^^^ 0xffffffff

/-- A `crc32.digest`: the running checksum and its table. -/
structure digest where
  crc : Nat
  tab : List Nat
deriving DecidableEq, Repr

/-- The function `crc32.New`. -/
def New (tab : List Nat) : digest := ⟨0, tab⟩

/-- The method `(*digest).Write`: it never returns an error. -/
def digest.Write (d : digest) (p : Bytes) : digest × Nat × Option GoError :=
  (⟨Update d.crc d.tab p, d.tab⟩, p.length, none)

/-- The method `(*digest).Sum32`. -/
def digest.Sum32 (d : digest) : Nat := d.crc % 2 ^ 32

/-- The method `(*digest).Sum`: `append(in, byte(s>>24), byte(s>>16), byte(s>>8), byte(s))`. -/
def digest.Sum (d : digest) (b : Bytes) : Bytes :=
  let s := d.Sum32
  b ++ [(s >>> 24) % 256, (s >>> 16) % 256, (s >>> 8) % 256, s % 256]

end crc32

namespace binary

/-- The method `binary.BigEndian.Uint32`; `none` is the bounds-check failure of
`_ = b[3]` on a slice shorter than four bytes. -/
def BigEndian.Uint32 (b : Bytes) : Option Nat :=
  match b with
  | b0 :: b1 :: b2 :: b3 :: _ =>
    some (((b3 % 256) ||| ((b2 % 256) <<< 8) ||| ((b1 % 256) <<< 16) ||| ((b0 % 256) <<< 24)) % 2 ^ 32)
  | _ => none

end binary

/-- The package-level `var crc32cTable = crc32.MakeTable(crc32.Castagnoli)`. -/
def crc32cTable : List Nat := crc32.MakeTable crc32.Castagnoli

/-! ### The bit-serial CRC, as a reference for the table-driven one -/

namespace crc32

/-- One step of the reflected shift register of a CRC with polynomial `poly`:
shift right by one bit and, when the bit shifted out is set, xor in `poly`. -/
def shiftStep (poly c : Nat) : Nat :=
  if c % 2 = 1 then (c / 2) ^^^ poly else c / 2

/-- Feed one message byte to the register: xor it into the low byte, then
take eight shift steps. -/
def shiftByte (poly c v : Nat) : Nat :=
  Nat.iterate (shiftStep poly) 8 (c ^^^ (v % 256))

/-- The reflected CRC-32 of a message bit by bit: the register starts at
`0xffffffff`, takes in every byte, and is complemented at the end. With
`poly = 0x82f63b78` this is CRC-32C (Castagnoli). -/
def bitSerial (poly : Nat) (p : Bytes) : Nat :=
  (p.foldl (shiftByte poly) 0xffffffff) ^^^ 0xffffffff

end crc32

/-! ## images.go -/

/-- The type `images.Image`: the three fields `processImage` touches, and the
remaining fields of the record as one value of type `ρ`. -/
structure Image (ρ : Type) where
  SHA256 : String
  SourceSHA256 : String
  Extension : String
  rest : ρ
deriving DecidableEq, Repr

/-- The zero value `images.Image{}`. -/
def Image.zero {ρ : Type} [Inhabited ρ] : Image ρ := ⟨"", "", "", default⟩

/-- A non-nil `io.ReadCloser` handed out by `Download`. -/
structure ReadCloser where
  id : Nat
deriving DecidableEq, Repr

/-- A non-nil `io.WriteCloser` handed out by `Upload`. -/
structure WriteCloser where
  id : Nat
deriving DecidableEq, Repr

/-- The interface `blobs.Storer` over an environment state `σ`, together with
the methods of the streams and sinks it hands out. Each call returns the Go
result tuple and the next environment state; `none` as a stream or sink is the
nil interface value, `none` as an error is the nil error. -/
structure Storer (σ : Type) where
  Download : String → σ → (Option ReadCloser × Option GoError) × σ
  Upload : String → Nat → σ → (Option WriteCloser × Option GoError) × σ
  /-- The method `rc.Close()` of a downloaded stream. -/
  CloseStream : ReadCloser → σ → Option GoError × σ
  /-- The method `wc.Write(b)` of an upload sink: bytes written and error. -/
  Write : WriteCloser → Bytes → σ → (Nat × Option GoError) × σ
  /-- The method `wc.Close()` of an upload sink. -/
  CloseSink : WriteCloser → σ → Option GoError × σ

/-- The interface `images.Processor` over an environment state `σ`. -/
structure Processor (σ ρ : Type) where
  Process : ReadCloser → σ → (Image ρ × Bytes × Option GoError) × σ

/-- The struct `imagesProcessCommand`, reduced to the fields `processImage` uses. -/
structure imagesProcessCommand (σ ρ : Type) where
  processor : Processor σ ρ
  blobs : Storer σ

/-- A collaborator call made by `processImage`, in the order it was made. -/
inductive Event where
  | download (source : String)
  | process (rc : ReadCloser)
  | upload (key : String) (crc : Nat)
  | write (wc : WriteCloser) (b : Bytes)
  | closeSink (wc : WriteCloser)
  | closeStream (rc : ReadCloser)
deriving DecidableEq, Repr

/-- How an invocation ends: it returns `(images.Image, error)`, or it panics. -/
inductive Outcome (ρ : Type) where
  | returned (img : Image ρ) (err : Option GoError)
  | panicked
deriving DecidableEq, Repr

/-- An invocation: how it ended, the calls it made, and the environment it left. -/
structure Run (σ ρ : Type) where
  out : Outcome ρ
  trace : List Event
  world : σ

section pipeline

variable {σ ρ : Type} [Inhabited ρ]

/-- Lines 93-98 of `processImage`: `defer wc.Close()`, the write of the
payload, and the deferred close (whose result is discarded) on the way out. -/
def processImage.store (u : imagesProcessCommand σ ρ) (img : Image ρ) (b : Bytes)
    (wc : WriteCloser) (w : σ) : Run σ ρ :=
  let wr := u.blobs.Write wc b w
  let out : Outcome ρ :=
    match wr.1.2 with
    | some e => .returned Image.zero (some e)
    | none => .returned img none
  let cl := u.blobs.CloseSink wc wr.2
  ⟨out, [.write wc b, .closeSink wc], cl.2⟩

/-- Lines 68-92 of `processImage`: the code that runs under `defer rc.Close()`,
up to the nil-sink test. -/
def processImage.transform (u : imagesProcessCommand σ ρ) (source : String)
    (rc : ReadCloser) (w : σ) : Run σ ρ :=
  let pr := u.processor.Process rc w
  match pr.1 with
  | (_, _, some e) => ⟨.returned Image.zero (some e), [.process rc], pr.2⟩
  | (img, b, none) =>
    let sha := sha256.New
    match sha.Write b with
    | (_, _, some e) => ⟨.returned Image.zero (some e), [.process rc], pr.2⟩
    | (sha, _, none) =>
      let img := { img with SHA256 := hex.EncodeToString (sha.Sum []), SourceSHA256 := source }
      let crc := crc32.New crc32cTable
      match crc.Write b with
      | (_, _, some e) => ⟨.returned Image.zero (some e), [.process rc], pr.2⟩
      | (crc, _, none) =>
        match binary.BigEndian.Uint32 (crc.Sum []) with
        | none => ⟨.panicked, [.process rc], pr.2⟩
        | some sum =>
          let key := img.SHA256 ++ "." ++ img.Extension
          let up := u.blobs.Upload key sum pr.2
          match up.1 with
          | (_, some e) => ⟨.returned Image.zero (some e), [.process rc, .upload key sum], up.2⟩
          | (none, none) => ⟨.returned img none, [.process rc, .upload key sum], up.2⟩
          | (some wc, none) =>
            let r := processImage.store u img b wc up.2
            ⟨r.out, [.process rc, .upload key sum] ++ r.trace, r.world⟩

/-- The method `imagesProcessCommand.processImage`. A nil stream returned with
a nil error makes `defer rc.Close()` panic; otherwise the deferred
`rc.Close()` runs after the rest of the body, its result discarded. The
`ctx` argument is only handed on to the collaborators, so it is part of the
environment their results depend on. -/
def processImage (u : imagesProcessCommand σ ρ) (source : String) (w : σ) : Run σ ρ :=
  let dl := u.blobs.Download source w
  match dl.1 with
  | (_, some e) => ⟨.returned Image.zero (some e), [.download source], dl.2⟩
  | (none, none) => ⟨.panicked, [.download source], dl.2⟩
  | (some rc, none) =>
    let r := processImage.transform u source rc dl.2
    let cl := u.blobs.CloseStream rc r.world
    ⟨r.out, .download source :: r.trace ++ [.closeStream rc], cl.2⟩

end pipeline

/-! ### Reading a trace -/

/-- Is the event a call of `Download`? -/
def Event.isDownload : Event → Bool
  | .download _ => true
  | _ => false

/-- Is the event a call of `Process`? -/
def Event.isProcess : Event → Bool
  | .process _ => true
  | _ => false

/-- Is the event a call of `Upload`? -/
def Event.isUpload : Event → Bool
  | .upload _ _ => true
  | _ => false

/-- Is the event a `Write` on a sink? -/
def Event.isWrite : Event → Bool
  | .write _ _ => true
  | _ => false

/-- Is the event a `Close` of a sink? -/
def Event.isCloseSink : Event → Bool
  | .closeSink _ => true
  | _ => false

/-- Is the event a `Close` of a downloaded stream? -/
def Event.isCloseStream : Event → Bool
  | .closeStream _ => true
  | _ => false

/-- The keys passed to `Upload`, in call order. -/
def uploadKeys : List Event → List String
  | [] => []
  | .upload key _ :: t => key :: uploadKeys t
  | _ :: t => uploadKeys t

/-- The checksums passed to `Upload`, in call order. -/
def uploadSums : List Event → List Nat
  | [] => []
  | .upload _ crc :: t => crc :: uploadSums t
  | _ :: t => uploadSums t

/-- The number of bytes handed to sinks by `Write` calls. -/
def bytesWritten : List Event → Nat
  | [] => 0
  | .write _ b :: t => b.length + bytesWritten t
  | _ :: t => bytesWritten t

/-! ### A content-addressed model store -/

/-- An open sink of the model store: its handle, the key it was issued for,
and the payload written to it so far (`none` before the first `Write`). -/
structure OpenSink where
  id : Nat
  key : String
  buffer : Option Bytes
deriving DecidableEq, Repr

/-- The model store: the committed objects by key, the sinks that are open,
and the next free sink handle. -/
structure ModelStore where
  objects : List (String × Bytes)
  sinks : List OpenSink
  next : Nat
deriving DecidableEq, Repr

/-- Is an object committed under `key`? -/
def ModelStore.has (st : ModelStore) (key : String) : Bool :=
  st.objects.any fun o => o.1 == key

/-- The call `Upload(key, _)` on the model store: a nil sink exactly when an
object is already committed under `key`, otherwise a fresh open sink. -/
def ModelStore.Upload (key : String) (_crc : Nat) (st : ModelStore) :
    (Option WriteCloser × Option GoError) × ModelStore :=
  if st.has key then ((none, none), st)
  else ((some ⟨st.next⟩, none),
    { st with sinks := ⟨st.next, key, none⟩ :: st.sinks, next := st.next + 1 })

/-- Record `b` in the first open sink with handle `id`; `none` when there is none. -/
def ModelStore.buffer (id : Nat) (b : Bytes) : List OpenSink → Option (List OpenSink)
  | [] => none
  | k :: rest =>
    if k.id = id then some ({ k with buffer := some (k.buffer.getD [] ++ b) } :: rest)
    else (ModelStore.buffer id b rest).map fun r => k :: r

/-- The call `Write(b)` on a sink of the model store: it succeeds on an open
sink, recording the payload, and fails on a handle that is not open. -/
def ModelStore.Write (wc : WriteCloser) (b : Bytes) (st : ModelStore) :
    (Nat × Option GoError) × ModelStore :=
  match ModelStore.buffer wc.id b st.sinks with
  | some sinks => ((b.length, none), { st with sinks := sinks })
  | none => ((0, some ⟨"write on closed sink"⟩), st)

/-- Take the first open sink with handle `id` out of the list. -/
def ModelStore.release (id : Nat) : List OpenSink → Option (OpenSink × List OpenSink)
  | [] => none
  | k :: rest =>
    if k.id = id then some (k, rest)
    else (ModelStore.release id rest).map fun r => (r.1, k :: r.2)

/-- The call `Close()` on a sink of the model store: a sink that was written
commits its payload under its key; the sink is no longer open afterwards. -/
def ModelStore.CloseSink (wc : WriteCloser) (st : ModelStore) : Option GoError × ModelStore :=
  match ModelStore.release wc.id st.sinks with
  | some (k, sinks) =>
    match k.buffer with
    | some payload => (none, { st with objects := (k.key, payload) :: st.objects, sinks := sinks })
    | none => (none, { st with sinks := sinks })
  | none => (some ⟨"close of closed sink"⟩, st)

/-- The command running against the model store: `fetch` names the stream a
source reference downloads to and `transform` is what `Process` makes of a
stream; neither fails nor touches the store. -/
def modelCommand {ρ : Type} (fetch : String → ReadCloser)
    (transform : ReadCloser → Image ρ × Bytes) : imagesProcessCommand ModelStore ρ where
  processor := { Process := fun rc st => (((transform rc).1, (transform rc).2, none), st) }
  blobs := {
    Download := fun source st => ((some (fetch source), none), st)
    Upload := ModelStore.Upload
    CloseStream := fun _ st => (none, st)
    Write := ModelStore.Write
    CloseSink := ModelStore.CloseSink }

/-! ### The exit paths of `processImage` -/

section exits

variable {σ ρ : Type} [Inhabited ρ]

/-- The six ways an invocation `processImage(source)` from environment `w` can
go, each with the collaborator results that select it and the run it yields:
`Download` fails; `Download` returns a nil stream and a nil error; `Process`
fails; `Upload` fails; `Upload` returns a nil sink; `Upload` returns a sink,
which is written and closed. -/
inductive processImage.Exit (u : imagesProcessCommand σ ρ) (source : String) (w : σ) :
    Run σ ρ → Prop where
  | downloadFails (x : Option ReadCloser) (e : GoError) (w1 : σ)
      (hd : u.blobs.Download source w = ((x, some e), w1)) :
      processImage.Exit u source w ⟨.returned Image.zero (some e), [.download source], w1⟩
  | nilStream (w1 : σ)
      (hd : u.blobs.Download source w = ((none, none), w1)) :
      processImage.Exit u source w ⟨.panicked, [.download source], w1⟩
  | processFails (rc : ReadCloser) (w1 w2 : σ) (r : Image ρ) (b : Bytes) (e : GoError)
      (hd : u.blobs.Download source w = ((some rc, none), w1))
      (hp : u.processor.Process rc w1 = ((r, b, some e), w2)) :
      processImage.Exit u source w
        ⟨.returned Image.zero (some e), [.download source, .process rc, .closeStream rc],
          (u.blobs.CloseStream rc w2).2⟩
  | uploadFails (rc : ReadCloser) (w1 w2 w3 : σ) (r : Image ρ) (b : Bytes)
      (x : Option WriteCloser) (e : GoError)
      (hd : u.blobs.Download source w = ((some rc, none), w1))
      (hp : u.processor.Process rc w1 = ((r, b, none), w2))
      (hu : u.blobs.Upload (hex.EncodeToString (sha256.Sum256 b) ++ "." ++ r.Extension)
        (crc32.Update 0 crc32cTable b) w2 = ((x, some e), w3)) :
      processImage.Exit u source w
        ⟨.returned Image.zero (some e),
          [.download source, .process rc,
            .upload (hex.EncodeToString (sha256.Sum256 b) ++ "." ++ r.Extension)
              (crc32.Update 0 crc32cTable b), .closeStream rc],
          (u.blobs.CloseStream rc w3).2⟩
  | alreadyExists (rc : ReadCloser) (w1 w2 w3 : σ) (r : Image ρ) (b : Bytes)
      (hd : u.blobs.Download source w = ((some rc, none), w1))
      (hp : u.processor.Process rc w1 = ((r, b, none), w2))
      (hu : u.blobs.Upload (hex.EncodeToString (sha256.Sum256 b) ++ "." ++ r.Extension)
        (crc32.Update 0 crc32cTable b) w2 = ((none, none), w3)) :
      processImage.Exit u source w
        ⟨.returned ⟨hex.EncodeToString (sha256.Sum256 b), source, r.Extension, r.rest⟩ none,
          [.download source, .process rc,
            .upload (hex.EncodeToString (sha256.Sum256 b) ++ "." ++ r.Extension)
              (crc32.Update 0 crc32cTable b), .closeStream rc],
          (u.blobs.CloseStream rc w3).2⟩
  | stored (rc : ReadCloser) (w1 w2 w3 : σ) (r : Image ρ) (b : Bytes) (wc : WriteCloser)
      (hd : u.blobs.Download source w = ((some rc, none), w1))
      (hp : u.processor.Process rc w1 = ((r, b, none), w2))
      (hu : u.blobs.Upload (hex.EncodeToString (sha256.Sum256 b) ++ "." ++ r.Extension)
        (crc32.Update 0 crc32cTable b) w2 = ((some wc, none), w3)) :
      processImage.Exit u source w
        ⟨(processImage.store u
            ⟨hex.EncodeToString (sha256.Sum256 b), source, r.Extension, r.rest⟩ b wc w3).out,
          [.download source, .process rc,
            .upload (hex.EncodeToString (sha256.Sum256 b) ++ "." ++ r.Extension)
              (crc32.Update 0 crc32cTable b), .write wc b, .closeSink wc, .closeStream rc],
          (u.blobs.CloseStream rc (u.blobs.CloseSink wc (u.blobs.Write wc b w3).2).2).2⟩

end exits

/-! ### A scripted environment -/

/-- What each collaborator call of a scripted environment returns. -/
structure Script where
  download : Option ReadCloser × Option GoError
  process : Image Nat × Bytes × Option GoError
  upload : Option WriteCloser × Option GoError
  write : Nat × Option GoError
  closeSink : Option GoError
  closeStream : Option GoError

/-- The command whose collaborators answer as scripted, whatever they are
asked; its environment has no state. -/
def scripted (sc : Script) : imagesProcessCommand Unit Nat where
  processor := { Process := fun _ w => (sc.process, w) }
  blobs := {
    Download := fun _ w => (sc.download, w)
    Upload := fun _ _ w => (sc.upload, w)
    CloseStream := fun _ w => (sc.closeStream, w)
    Write := fun _ _ w => (sc.write, w)
    CloseSink := fun _ w => (sc.closeSink, w) }

/-- The script in which every call succeeds: the source downloads to stream 1,
the transformer returns a `png` record with payload `[1, 2, 3]`, and the store
hands out sink 2. -/
def Script.fresh : Script where
  download := (some ⟨1⟩, none)
  process := (⟨"", "", "png", 7⟩, [1, 2, 3], none)
  upload := (some ⟨2⟩, none)
  write := (3, none)
  closeSink := none
  closeStream := none

/-- The script in which the store already holds the object: `Upload` returns a
nil sink and a nil error. -/
def Script.stored : Script := { Script.fresh with upload := (none, none) }

/-- The script in which `Download` fails. -/
def Script.downloadFails : Script :=
  { Script.fresh with download := (none, some ⟨"not found"⟩) }

/-- The script in which `Process` fails. -/
def Script.processFails : Script :=
  { Script.fresh with process := (⟨"", "", "", 0⟩, [], some ⟨"unsupported format"⟩) }

/-- The script in which `Upload` fails. -/
def Script.uploadFails : Script :=
  { Script.fresh with upload := (none, some ⟨"store unavailable"⟩) }

/-- The script in which the sink's `Write` fails. -/
def Script.writeFails : Script :=
  { Script.fresh with write := (0, some ⟨"disk full"⟩) }

/-- The script in which the sink's `Close` fails after a successful `Write`. -/
def Script.closeFails : Script :=
  { Script.fresh with closeSink := some ⟨"commit failed"⟩ }

/-! ## version.go -/

/-- The struct `impracticalUpdates`. -/
structure impracticalUpdates where
  Version : String
  Deprecated : Bool
deriving DecidableEq, Repr

/-- The struct `item`, with the fields the version check reads (`URL`,
`ImpracticalUpdates`) and its `ID`; the other fields are carried along
untouched by `getVersionsSince` and are left out. -/
structure item where
  ID : String
  URL : String
  ImpracticalUpdates : impracticalUpdates
deriving DecidableEq, Repr

/-- A Go `[]item` as decoded into a feed: its `len` elements, and the elements
of its backing array between `len` and `cap`, which a reslice can reach. -/
structure itemSlice where
  elems : List item
  spare : List item
deriving DecidableEq, Repr

/-- The capacity `cap(s)` of a slice. -/
def itemSlice.cap (s : itemSlice) : Nat := s.elems.length + s.spare.length

/-- The slice expression `s[:high]`: `none` is the run-time panic for
`high > cap(s)`. -/
def itemSlice.upTo (s : itemSlice) (high : Nat) : Option (List item) :=
  if high ≤ s.cap then some ((s.elems ++ s.spare).take high) else none

/-- The struct `feed`, with the fields `getVersionsSince` reads. -/
structure feed where
  NextURL : String
  Items : itemSlice
deriving DecidableEq, Repr

/-- How a call of `getVersionsSince` ends: it returns `(items, nil)`, it
returns `(nil, err)`, it panics, or the loop is still running when the fuel
of the model is spent. -/
inductive Versions where
  | returned (items : List item)
  | failed (err : GoError)
  | panicked
  | running
deriving DecidableEq, Repr

/-- The inner loop of `getVersionsSince`: `for pos, i := range items` looking
for `i.ImpracticalUpdates.Version == curVersion`; the position of the first
match, or `none` for `found == -1`. -/
def getVersionsSince.find (curVersion : String) : List item → Nat → Option Nat
  | [], _ => none
  | i :: rest, pos =>
    if i.ImpracticalUpdates.Version = curVersion then some pos
    else getVersionsSince.find curVersion rest (pos + 1)

/-- The `for` loop of `getVersionsSince` with `fuel` iterations allowed, from
the accumulated `items` and the current page URL `u`; it also lists the URLs
fetched, first to last. `fetchFeed` is the page fetcher: a feed, or the error
it returns. -/
def getVersionsSince.loop (fetchFeed : String → Except GoError feed) (curVersion : String) :
    Nat → List item → String → Versions × List String
  | 0, _, _ => (.running, [])
  | fuel + 1, items, u =>
    match fetchFeed u with
    | .error err => (.failed err, [u])
    | .ok f =>
      match getVersionsSince.find curVersion items 0 with
      | some found =>
        match f.Items.upTo (found + 1) with
        | some front => (.returned (items ++ front), [u])
        | none => (.panicked, [u])
      | none =>
        let items := items ++ f.Items.elems
        let u2 := f.NextURL
        if u2 = "" then (.returned items, [u])
        else
          let r := getVersionsSince.loop fetchFeed curVersion fuel items u2
          (r.1, u :: r.2)

/-- The function `getVersionsSince`, with `fuel` loop iterations allowed. -/
def getVersionsSince (fetchFeed : String → Except GoError feed) (fuel : Nat)
    (curVersion url : String) : Versions × List String :=
  getVersionsSince.loop fetchFeed curVersion fuel [] url


/-- The feed entry announcing release `v`. -/
def release (v : String) : item :=
  ⟨"release-" ++ v, "https://example.org/tanglesd/" ++ v, ⟨v, false⟩⟩

/-- A feed of one page, newest release first: `v1.1.0`, then `v1.0.0`; there
is no next page. -/
def onePageFeed : String → Except GoError feed :=
  fun _ => .ok ⟨"", ⟨[release "v1.1.0", release "v1.0.0"], []⟩⟩

/-- A feed of two pages: page `p1` holds `v1.2.0` and `v1.1.0` and links to
`p2`, which holds `v1.0.0` in a slice of capacity one and has no next page. -/
def twoPageFeed : String → Except GoError feed :=
  fun u =>
    if u = "p1" then .ok ⟨"p2", ⟨[release "v1.2.0", release "v1.1.0"], []⟩⟩
    else .ok ⟨"", ⟨[release "v1.0.0"], []⟩⟩

/-! ## Lemmas on the library primitives -/

theorem sha256.sha_Write_New (b : Bytes) :
    sha256.digest.Write sha256.New b = (⟨b⟩, b.length, none) := by
  rw [sha256.digest.Write, sha256.New, List.nil_append]
theorem sha256.sha_Sum_nil (d : sha256.digest) : d.Sum [] = sha256.Sum256 d.written := by
  rw [sha256.digest.Sum, List.nil_append]
theorem crc32.crc_Write_New (tab : List Nat) (b : Bytes) :
    crc32.digest.Write (crc32.New tab) b = (⟨crc32.Update 0 tab b, tab⟩, b.length, none) := by
  rw [crc32.digest.Write, crc32.New]
theorem crc32.Update_lt (crc : Nat) (tab : List Nat) (p : Bytes) :
    crc32.Update crc tab p < 2 ^ 32 := by
  unfold crc32.Update
  exact Nat.xor_lt_two_pow (Nat.mod_lt _ (by norm_num)) (by norm_num)
theorem crc32.Sum32_mk (c : Nat) (tab : List Nat) (h : c < 2 ^ 32) :
    crc32.digest.Sum32 ⟨c, tab⟩ = c := Nat.mod_eq_of_lt h
theorem crc32.crc_Sum_nil (d : crc32.digest) :
    d.Sum [] = [(d.Sum32 >>> 24) % 256, (d.Sum32 >>> 16) % 256, (d.Sum32 >>> 8) % 256, d.Sum32 % 256] := by
  rw [crc32.digest.Sum, List.nil_append]
theorem hex.Encode_length (b : Bytes) : (hex.Encode b).length = 2 * b.length := by
  induction b with
  | nil => rfl
  | cons v rest ih => simp [hex.Encode, hex.encodeByte, ih]; omega

theorem hex.getD_mem (n : Nat) (h : n < 16) : hex.hextable.getD n '0' ∈ hex.hextable := by
  interval_cases n <;> decide

theorem hex.Encode_mem (b : Bytes) : ∀ c ∈ hex.Encode b, c ∈ hex.hextable := by
  induction b with
  | nil => intro c hc; simp [hex.Encode] at hc
  | cons v rest ih =>
    intro c hc
    simp only [hex.Encode, hex.encodeByte, List.cons_append, List.nil_append, List.mem_cons] at hc
    rcases hc with h | h | h
    · subst h
      apply hex.getD_mem
      rw [Nat.shiftRight_eq_div_pow]
      have := Nat.mod_lt v (show 256 > 0 by decide)
      omega
    · subst h
      apply hex.getD_mem
      have : (v % 256) &&& 0x0f = (v % 256) % 2 ^ 4 := Nat.and_pow_two_sub_one_eq_mod _ 4
      rw [this]
      exact Nat.mod_lt _ (by decide)
    · exact ih c h

theorem sha256.Sum256_length (data : Bytes) : (sha256.Sum256 data).length = 32 := by
  simp [sha256.Sum256, sha256.stateBytes, sha256.putUint32]

theorem binary.Uint32_putBytes (s : Nat) (h : s < 2 ^ 32) :
    binary.BigEndian.Uint32 [(s >>> 24) % 256, (s >>> 16) % 256, (s >>> 8) % 256, s % 256]
      = some s := by
  simp only [binary.BigEndian.Uint32, Option.some.injEq]
  apply Nat.eq_of_testBit_eq
  intro i
  have e : (256 : Nat) = 2 ^ 8 := by norm_num
  simp only [e, Nat.testBit_mod_two_pow, Nat.testBit_or, Nat.testBit_shiftLeft,
    Nat.testBit_shiftRight, Nat.mod_mod]
  by_cases h4 : i < 32
  · by_cases h1 : i < 8
    · simp [h1, h4, show ¬ (8 ≤ i) by omega, show ¬ (16 ≤ i) by omega, show ¬ (24 ≤ i) by omega]
    · by_cases h2 : i < 16
      · simp [h1, h2, h4, show (8 ≤ i) by omega, show ¬ (16 ≤ i) by omega,
          show ¬ (24 ≤ i) by omega, show i - 8 < 8 by omega, show 8 + (i - 8) = i by omega]
      · by_cases h3 : i < 24
        · simp [h1, h2, h3, h4, show (8 ≤ i) by omega, show (16 ≤ i) by omega,
            show ¬ (24 ≤ i) by omega, show ¬ (i - 8 < 8) by omega, show i - 16 < 8 by omega,
            show 16 + (i - 16) = i by omega]
        · simp [h1, h2, h3, h4, show (8 ≤ i) by omega, show (16 ≤ i) by omega,
            show (24 ≤ i) by omega, show ¬ (i - 8 < 8) by omega, show ¬ (i - 16 < 8) by omega,
            show i - 24 < 8 by omega, show 24 + (i - 24) = i by omega]
  · have : s.testBit i = false := by
      apply Nat.testBit_lt_two_pow
      calc s < 2 ^ 32 := h
        _ ≤ 2 ^ i := Nat.pow_le_pow_right (by decide) (by omega)
    simp [h4, this]


theorem crc32.Uint32_Sum (tab : List Nat) (b : Bytes) :
    binary.BigEndian.Uint32 (crc32.digest.Sum ⟨crc32.Update 0 tab b, tab⟩ [])
      = some (crc32.Update 0 tab b) := by
  rw [crc32.crc_Sum_nil, crc32.Sum32_mk _ _ (crc32.Update_lt 0 tab b)]
  exact binary.Uint32_putBytes _ (crc32.Update_lt 0 tab b)


/-! ### The table-driven CRC is the bit-serial CRC -/

theorem crc32.tableEntry_eq_iterate (poly : Nat) (j c : Nat) :
    crc32.tableEntry poly j c = Nat.iterate (crc32.shiftStep poly) j c := by
  induction j generalizing c with
  | zero => rfl
  | succ j ih =>
    rw [crc32.tableEntry, ih, Function.iterate_succ_apply, Nat.and_one_is_mod,
      Nat.shiftRight_one, crc32.shiftStep]

/-- The shift step is linear over xor. -/
theorem crc32.shiftStep_xor (poly x y : Nat) :
    crc32.shiftStep poly (x ^^^ y) = crc32.shiftStep poly x ^^^ crc32.shiftStep poly y := by
  unfold crc32.shiftStep
  rw [Nat.xor_div_two]
  by_cases hx : x % 2 = 1 <;> by_cases hy : y % 2 = 1
  · have h : ¬ ((x ^^^ y) % 2 = 1) := by rw [Nat.xor_mod_two_eq_one]; simp [hx, hy]
    rw [if_neg h, if_pos hx, if_pos hy]
    apply Nat.eq_of_testBit_eq
    intro i
    simp only [Nat.testBit_xor]
    cases (x / 2).testBit i <;> cases (y / 2).testBit i <;> cases poly.testBit i <;> rfl
  · have h : (x ^^^ y) % 2 = 1 := by rw [Nat.xor_mod_two_eq_one]; simp [hx, hy]
    rw [if_pos h, if_pos hx, if_neg hy]
    apply Nat.eq_of_testBit_eq
    intro i
    simp only [Nat.testBit_xor]
    cases (x / 2).testBit i <;> cases (y / 2).testBit i <;> cases poly.testBit i <;> rfl
  · have h : (x ^^^ y) % 2 = 1 := by rw [Nat.xor_mod_two_eq_one]; simp [hx, hy]
    rw [if_pos h, if_neg hx, if_pos hy]
    apply Nat.eq_of_testBit_eq
    intro i
    simp only [Nat.testBit_xor]
    cases (x / 2).testBit i <;> cases (y / 2).testBit i <;> cases poly.testBit i <;> rfl
  · have h : ¬ ((x ^^^ y) % 2 = 1) := by rw [Nat.xor_mod_two_eq_one]; simp [hx, hy]
    rw [if_neg h, if_neg hx, if_neg hy]

theorem crc32.iterate_shiftStep_xor (poly : Nat) (k x y : Nat) :
    Nat.iterate (crc32.shiftStep poly) k (x ^^^ y) =
      Nat.iterate (crc32.shiftStep poly) k x ^^^ Nat.iterate (crc32.shiftStep poly) k y := by
  induction k generalizing x y with
  | zero => rfl
  | succ k ih =>
    rw [Function.iterate_succ_apply, Function.iterate_succ_apply, Function.iterate_succ_apply,
      crc32.shiftStep_xor, ih]

/-- Shifting out `k` zero bits only shifts. -/
theorem crc32.iterate_shiftStep_shifted (poly : Nat) (k h : Nat) :
    Nat.iterate (crc32.shiftStep poly) k (h * 2 ^ k) = h := by
  induction k with
  | zero => simp
  | succ k ih =>
    rw [Function.iterate_succ_apply]
    have h1 : crc32.shiftStep poly (h * 2 ^ (k + 1)) = h * 2 ^ k := by
      have e : h * 2 ^ (k + 1) = 2 * (h * 2 ^ k) := by ring
      rw [crc32.shiftStep, e]
      have hm : 2 * (h * 2 ^ k) % 2 = 0 := Nat.mul_mod_right 2 _
      rw [if_neg (by omega)]
      omega
    rw [h1, ih]

/-- A register value is its high part xor its low byte. -/
theorem crc32.split_low_byte (c : Nat) : c = (c / 256) * 2 ^ 8 ^^^ (c % 256) := by
  apply Nat.eq_of_testBit_eq
  intro i
  have e : (256 : Nat) = 2 ^ 8 := by norm_num
  rw [e, ← Nat.shiftLeft_eq, ← Nat.shiftRight_eq_div_pow]
  simp only [Nat.testBit_xor, Nat.testBit_shiftLeft, Nat.testBit_shiftRight,
    Nat.testBit_mod_two_pow]
  by_cases h : i < 8
  · simp [h, show ¬ (8 ≤ i) by omega]
  · simp [h, show 8 ≤ i by omega, show 8 + (i - 8) = i by omega]

/-- One table lookup does the work of eight shift steps. -/
theorem crc32.table_step (poly c v : Nat) :
    (crc32.MakeTable poly).getD ((c % 256) ^^^ (v % 256)) 0 ^^^ (c >>> 8) =
      crc32.shiftByte poly c v := by
  have hi : (c % 256) ^^^ (v % 256) < 256 := by
    have e : (256 : Nat) = 2 ^ 8 := by norm_num
    rw [e]
    exact Nat.xor_lt_two_pow (Nat.mod_lt _ (by norm_num)) (Nat.mod_lt _ (by norm_num))
  have hget : (crc32.MakeTable poly).getD ((c % 256) ^^^ (v % 256)) 0 =
      crc32.tableEntry poly 8 ((c % 256) ^^^ (v % 256)) := by
    simp [crc32.MakeTable, List.getD_eq_getElem?_getD, hi]
  rw [hget, crc32.tableEntry_eq_iterate, crc32.shiftByte]
  conv_rhs => rw [crc32.split_low_byte c, Nat.xor_assoc, crc32.iterate_shiftStep_xor,
    crc32.iterate_shiftStep_shifted]
  rw [Nat.shiftRight_eq_div_pow, Nat.xor_comm]

theorem crc32.updateLoop_eq_foldl (poly : Nat) (c : Nat) (p : Bytes) :
    crc32.updateLoop (crc32.MakeTable poly) c p = p.foldl (crc32.shiftByte poly) c := by
  induction p generalizing c with
  | nil => rfl
  | cons v rest ih => rw [crc32.updateLoop, crc32.table_step, ih, List.foldl_cons]

theorem crc32.shiftStep_lt (poly c : Nat) (hp : poly < 2 ^ 32) (hc : c < 2 ^ 32) :
    crc32.shiftStep poly c < 2 ^ 32 := by
  unfold crc32.shiftStep
  have h2 : c / 2 < 2 ^ 32 := by omega
  split
  · exact Nat.xor_lt_two_pow h2 hp
  · exact h2

theorem crc32.iterate_shiftStep_lt (poly k c : Nat) (hp : poly < 2 ^ 32) (hc : c < 2 ^ 32) :
    Nat.iterate (crc32.shiftStep poly) k c < 2 ^ 32 := by
  induction k generalizing c with
  | zero => exact hc
  | succ k ih =>
    rw [Function.iterate_succ_apply]
    exact ih _ (crc32.shiftStep_lt poly c hp hc)

theorem crc32.foldl_shiftByte_lt (poly : Nat) (p : Bytes) (c : Nat) (hp : poly < 2 ^ 32)
    (hc : c < 2 ^ 32) : p.foldl (crc32.shiftByte poly) c < 2 ^ 32 := by
  induction p generalizing c with
  | nil => exact hc
  | cons v rest ih =>
    rw [List.foldl_cons]
    apply ih
    unfold crc32.shiftByte
    apply crc32.iterate_shiftStep_lt poly 8 _ hp
    exact Nat.xor_lt_two_pow hc (by omega)

/-- The table-driven `crc32.Update` from a zero checksum computes the
bit-serial reflected CRC-32 of the polynomial. -/
theorem crc32.Update_eq_bitSerial (poly : Nat) (p : Bytes) (hp : poly < 2 ^ 32) :
    crc32.Update 0 (crc32.MakeTable poly) p = crc32.bitSerial poly p := by
  unfold crc32.Update crc32.bitSerial
  rw [crc32.updateLoop_eq_foldl]
  have e : (0 % 2 ^ 32) ^^^ 0xffffffff = 0xffffffff := by norm_num
  rw [e, Nat.mod_eq_of_lt (crc32.foldl_shiftByte_lt poly p _ hp (by norm_num))]



/-- The package-level table is the Castagnoli table, so the checksum of the
pipeline is the bit-serial CRC-32C. -/
theorem crc32.Update_crc32cTable (p : Bytes) :
    crc32.Update 0 crc32cTable p = crc32.bitSerial crc32.Castagnoli p := by
  rw [crc32cTable]
  exact crc32.Update_eq_bitSerial crc32.Castagnoli p (by norm_num [crc32.Castagnoli])

/-! ## The paths of `processImage` -/

section paths

variable {σ ρ : Type} [Inhabited ρ]

theorem processImage.store_trace (u : imagesProcessCommand σ ρ) (img : Image ρ) (b : Bytes)
    (wc : WriteCloser) (w : σ) :
    (processImage.store u img b wc w).trace = [.write wc b, .closeSink wc] := by
  rw [processImage.store]

theorem processImage.store_world (u : imagesProcessCommand σ ρ) (img : Image ρ) (b : Bytes)
    (wc : WriteCloser) (w : σ) :
    (processImage.store u img b wc w).world = (u.blobs.CloseSink wc (u.blobs.Write wc b w).2).2 := by
  rw [processImage.store]

theorem processImage.store_out_ok (u : imagesProcessCommand σ ρ) (img : Image ρ) (b : Bytes)
    (wc : WriteCloser) (w : σ) (hw : (u.blobs.Write wc b w).1.2 = none) :
    (processImage.store u img b wc w).out = .returned img none := by
  rw [processImage.store]
  simp only [hw]

theorem processImage.store_out_err (u : imagesProcessCommand σ ρ) (img : Image ρ) (b : Bytes)
    (wc : WriteCloser) (w : σ) (e : GoError) (hw : (u.blobs.Write wc b w).1.2 = some e) :
    (processImage.store u img b wc w).out = .returned Image.zero (some e) := by
  rw [processImage.store]
  simp only [hw]

theorem processImage.transform_processErr (u : imagesProcessCommand σ ρ) (source : String)
    (rc : ReadCloser) (w w2 : σ) (r : Image ρ) (b : Bytes) (e : GoError)
    (hp : u.processor.Process rc w = ((r, b, some e), w2)) :
    processImage.transform u source rc w = ⟨.returned Image.zero (some e), [.process rc], w2⟩ := by
  unfold processImage.transform
  simp only [hp]

theorem processImage.transform_uploadErr (u : imagesProcessCommand σ ρ) (source : String)
    (rc : ReadCloser) (w w2 w3 : σ) (r : Image ρ) (b : Bytes) (x : Option WriteCloser)
    (e : GoError)
    (hp : u.processor.Process rc w = ((r, b, none), w2))
    (hu : u.blobs.Upload (hex.EncodeToString (sha256.Sum256 b) ++ "." ++ r.Extension)
      (crc32.Update 0 crc32cTable b) w2 = ((x, some e), w3)) :
    processImage.transform u source rc w =
      ⟨.returned Image.zero (some e),
        [.process rc, .upload (hex.EncodeToString (sha256.Sum256 b) ++ "." ++ r.Extension)
          (crc32.Update 0 crc32cTable b)], w3⟩ := by
  unfold processImage.transform
  simp only [hp, sha256.sha_Write_New, sha256.sha_Sum_nil, crc32.crc_Write_New, crc32.Uint32_Sum, hu]

theorem processImage.transform_uploadNil (u : imagesProcessCommand σ ρ) (source : String)
    (rc : ReadCloser) (w w2 w3 : σ) (r : Image ρ) (b : Bytes)
    (hp : u.processor.Process rc w = ((r, b, none), w2))
    (hu : u.blobs.Upload (hex.EncodeToString (sha256.Sum256 b) ++ "." ++ r.Extension)
      (crc32.Update 0 crc32cTable b) w2 = ((none, none), w3)) :
    processImage.transform u source rc w =
      ⟨.returned ⟨hex.EncodeToString (sha256.Sum256 b), source, r.Extension, r.rest⟩ none,
        [.process rc, .upload (hex.EncodeToString (sha256.Sum256 b) ++ "." ++ r.Extension)
          (crc32.Update 0 crc32cTable b)], w3⟩ := by
  unfold processImage.transform
  simp only [hp, sha256.sha_Write_New, sha256.sha_Sum_nil, crc32.crc_Write_New, crc32.Uint32_Sum, hu]

theorem processImage.transform_uploadSink (u : imagesProcessCommand σ ρ) (source : String)
    (rc : ReadCloser) (w w2 w3 : σ) (r : Image ρ) (b : Bytes) (wc : WriteCloser)
    (hp : u.processor.Process rc w = ((r, b, none), w2))
    (hu : u.blobs.Upload (hex.EncodeToString (sha256.Sum256 b) ++ "." ++ r.Extension)
      (crc32.Update 0 crc32cTable b) w2 = ((some wc, none), w3)) :
    processImage.transform u source rc w =
      ⟨(processImage.store u
          ⟨hex.EncodeToString (sha256.Sum256 b), source, r.Extension, r.rest⟩ b wc w3).out,
        [.process rc, .upload (hex.EncodeToString (sha256.Sum256 b) ++ "." ++ r.Extension)
          (crc32.Update 0 crc32cTable b), .write wc b, .closeSink wc],
        (u.blobs.CloseSink wc (u.blobs.Write wc b w3).2).2⟩ := by
  unfold processImage.transform
  simp only [hp, sha256.sha_Write_New, sha256.sha_Sum_nil, crc32.crc_Write_New, crc32.Uint32_Sum, hu,
    processImage.store_trace, processImage.store_world, List.cons_append, List.nil_append]

theorem processImage_downloadErr (u : imagesProcessCommand σ ρ) (source : String) (w w1 : σ)
    (x : Option ReadCloser) (e : GoError)
    (hd : u.blobs.Download source w = ((x, some e), w1)) :
    processImage u source w = ⟨.returned Image.zero (some e), [.download source], w1⟩ := by
  unfold processImage
  simp only [hd]

theorem processImage_downloadNil (u : imagesProcessCommand σ ρ) (source : String) (w w1 : σ)
    (hd : u.blobs.Download source w = ((none, none), w1)) :
    processImage u source w = ⟨.panicked, [.download source], w1⟩ := by
  unfold processImage
  simp only [hd]

theorem processImage_downloadOk (u : imagesProcessCommand σ ρ) (source : String) (w w1 : σ)
    (rc : ReadCloser) (hd : u.blobs.Download source w = ((some rc, none), w1)) :
    processImage u source w =
      ⟨(processImage.transform u source rc w1).out,
        .download source :: (processImage.transform u source rc w1).trace ++ [.closeStream rc],
        (u.blobs.CloseStream rc (processImage.transform u source rc w1).world).2⟩ := by
  unfold processImage
  simp only [hd]

end paths


/-! ## The claims about `processImage` -/

section claims
variable {σ ρ : Type} [Inhabited ρ]

/-- Once `Process` has succeeded, the calls made under `defer rc.Close()` are
`Process`, then `Upload` with the content-addressed key and the CRC-32C
checksum, then either nothing more or one `Write` of the payload and one
`Close` on the sink that `Upload` returned. -/
theorem processImage.transform_reached (u : imagesProcessCommand σ ρ) (source : String)
    (rc : ReadCloser) (w w2 : σ) (r : Image ρ) (b : Bytes)
    (hp : u.processor.Process rc w = ((r, b, none), w2)) :
    ∃ t, (processImage.transform u source rc w).trace =
        .process rc :: .upload (hex.EncodeToString (sha256.Sum256 b) ++ "." ++ r.Extension)
          (crc32.Update 0 crc32cTable b) :: t ∧
      (t = [] ∨ ∃ wc, t = [.write wc b, .closeSink wc]) := by
  rcases hU : u.blobs.Upload (hex.EncodeToString (sha256.Sum256 b) ++ "." ++ r.Extension)
      (crc32.Update 0 crc32cTable b) w2 with ⟨⟨x, e⟩, w3⟩
  cases e with
  | some e =>
    rw [processImage.transform_uploadErr u source rc w w2 w3 r b x e hp hU]
    exact ⟨[], rfl, Or.inl rfl⟩
  | none =>
    cases x with
    | none =>
      rw [processImage.transform_uploadNil u source rc w w2 w3 r b hp hU]
      exact ⟨[], rfl, Or.inl rfl⟩
    | some wc =>
      rw [processImage.transform_uploadSink u source rc w w2 w3 r b wc hp hU]
      exact ⟨[.write wc b, .closeSink wc], rfl, Or.inr ⟨wc, rfl⟩⟩

/-- The keys and checksums passed to `Upload` by an invocation that reaches the store step. -/
theorem processImage_uploads (u : imagesProcessCommand σ ρ) (s : String) (w w1 w2 : σ)
    (rc : ReadCloser) (r : Image ρ) (b : Bytes)
    (hd : u.blobs.Download s w = ((some rc, none), w1))
    (hp : u.processor.Process rc w1 = ((r, b, none), w2)) :
    uploadKeys (processImage u s w).trace =
        [hex.EncodeToString (sha256.Sum256 b) ++ "." ++ r.Extension] ∧
      uploadSums (processImage u s w).trace = [crc32.Update 0 crc32cTable b] := by
  rw [processImage_downloadOk u s w w1 rc hd]
  obtain ⟨t, ht, hcase⟩ := processImage.transform_reached u s rc w1 w2 r b hp
  simp only [ht]
  rcases hcase with h | ⟨wc, h⟩ <;> subst h <;> constructor <;> rfl

theorem hex.EncodeToString_length (b : Bytes) :
    (hex.EncodeToString b).length = 2 * b.length := by
  rw [hex.EncodeToString, String.length, hex.Encode_length]

/-- C1: when `Download` succeeds, `Process` succeeds with record `r` and bytes
`b`, and `Upload` returns a nil error with either a nil sink or a sink whose
`Write` of `b` succeeds, `processImage` returns a nil error and the record `r`
with `SHA256` set to the hexadecimal SHA-256 digest of `b` and `SourceSHA256`
set to the source reference, every other field (`Extension` included) as in
`r`, whether or not a write took place. -/
theorem processImage_returns_completed_record (u : imagesProcessCommand σ ρ) (s : String)
    (w w1 w2 w3 : σ) (rc : ReadCloser) (r : Image ρ) (b : Bytes) (sink : Option WriteCloser)
    (hd : u.blobs.Download s w = ((some rc, none), w1))
    (hp : u.processor.Process rc w1 = ((r, b, none), w2))
    (hu : u.blobs.Upload (hex.EncodeToString (sha256.Sum256 b) ++ "." ++ r.Extension)
      (crc32.Update 0 crc32cTable b) w2 = ((sink, none), w3))
    (hw : ∀ wc, sink = some wc → (u.blobs.Write wc b w3).1.2 = none) :
    (processImage u s w).out =
      .returned ⟨hex.EncodeToString (sha256.Sum256 b), s, r.Extension, r.rest⟩ none := by
  rw [processImage_downloadOk u s w w1 rc hd]
  cases sink with
  | none => rw [processImage.transform_uploadNil u s rc w1 w2 w3 r b hp hu]
  | some wc =>
    rw [processImage.transform_uploadSink u s rc w1 w2 w3 r b wc hp hu]
    exact processImage.store_out_ok u _ b wc w3 (hw wc rfl)

/-- Witness of C1 on the all-succeeding script: source `abc123`, a `png`
record and payload `[1, 2, 3]`. -/
theorem processImage_returns_completed_record_witness :
    (scripted Script.fresh).blobs.Download "abc123" () = ((some ⟨1⟩, none), ()) ∧
    (scripted Script.fresh).processor.Process ⟨1⟩ () = ((⟨"", "", "png", 7⟩, [1, 2, 3], none), ()) ∧
    (processImage (scripted Script.fresh) "abc123" ()).out =
      .returned ⟨hex.EncodeToString (sha256.Sum256 [1, 2, 3]), "abc123", "png", 7⟩ none :=
  ⟨rfl, rfl,
    processImage_returns_completed_record (scripted Script.fresh) "abc123" () () () ()
      ⟨1⟩ ⟨"", "", "png", 7⟩ [1, 2, 3] (some ⟨2⟩) rfl rfl rfl (fun _ _ => rfl)⟩

/-- C2: an invocation that reaches the store step passes to `Upload` exactly
the key `hex(SHA-256(b)) ++ "." ++ r.Extension`, whose digest part is 64
characters over `0-9a-f`; so two invocations (any commands, any source
references, any downloaded streams) whose `Process` results have equal bytes
and equal extensions pass the identical key. -/
theorem upload_key_is_content_addressed (u1 u2 : imagesProcessCommand σ ρ) (s1 s2 : String)
    (w v w1 w2 v1 v2 : σ) (rc1 rc2 : ReadCloser) (r1 r2 : Image ρ) (b : Bytes)
    (hd1 : u1.blobs.Download s1 w = ((some rc1, none), w1))
    (hp1 : u1.processor.Process rc1 w1 = ((r1, b, none), w2))
    (hd2 : u2.blobs.Download s2 v = ((some rc2, none), v1))
    (hp2 : u2.processor.Process rc2 v1 = ((r2, b, none), v2))
    (hext : r1.Extension = r2.Extension) :
    uploadKeys (processImage u1 s1 w).trace =
        [hex.EncodeToString (sha256.Sum256 b) ++ "." ++ r1.Extension] ∧
      uploadKeys (processImage u2 s2 v).trace = uploadKeys (processImage u1 s1 w).trace ∧
      (hex.EncodeToString (sha256.Sum256 b)).length = 64 ∧
      ∀ c ∈ (hex.EncodeToString (sha256.Sum256 b)).data, c ∈ hex.hextable := by
  have h1 := (processImage_uploads u1 s1 w w1 w2 rc1 r1 b hd1 hp1).1
  have h2 := (processImage_uploads u2 s2 v v1 v2 rc2 r2 b hd2 hp2).1
  refine ⟨h1, ?_, ?_, ?_⟩
  · rw [h1, h2, hext]
  · rw [hex.EncodeToString_length, sha256.Sum256_length]
  · exact hex.Encode_mem _

/-- Witness of C2: sources `abc123` and `xyz789`, the first against a store
that hands out a sink and the second against one that already holds the object. -/
theorem upload_key_is_content_addressed_witness :
    uploadKeys (processImage (scripted Script.fresh) "abc123" ()).trace =
        [hex.EncodeToString (sha256.Sum256 [1, 2, 3]) ++ "." ++ "png"] ∧
      uploadKeys (processImage (scripted Script.stored) "xyz789" ()).trace =
        uploadKeys (processImage (scripted Script.fresh) "abc123" ()).trace ∧
      (hex.EncodeToString (sha256.Sum256 [1, 2, 3])).length = 64 ∧
      ∀ c ∈ (hex.EncodeToString (sha256.Sum256 [1, 2, 3])).data, c ∈ hex.hextable :=
  upload_key_is_content_addressed (scripted Script.fresh) (scripted Script.stored)
    "abc123" "xyz789" () () () () () () ⟨1⟩ ⟨1⟩ ⟨"", "", "png", 7⟩ ⟨"", "", "png", 7⟩ [1, 2, 3]
    rfl rfl rfl rfl rfl

/-- C3: when `Download` and `Process` succeed and `Upload` returns a nil sink
with a nil error, `processImage` returns a nil error and the completed record
(digest of the output bytes, the current source reference as provenance), and
the calls it made are `Download`, `Process`, `Upload` and the close of the
downloaded stream: no `Write`, no `Close` of a sink, zero bytes written. -/
theorem already_exists_is_success_without_write (u : imagesProcessCommand σ ρ) (s : String)
    (w w1 w2 w3 : σ) (rc : ReadCloser) (r : Image ρ) (b : Bytes)
    (hd : u.blobs.Download s w = ((some rc, none), w1))
    (hp : u.processor.Process rc w1 = ((r, b, none), w2))
    (hu : u.blobs.Upload (hex.EncodeToString (sha256.Sum256 b) ++ "." ++ r.Extension)
      (crc32.Update 0 crc32cTable b) w2 = ((none, none), w3)) :
    (processImage u s w).out =
        .returned ⟨hex.EncodeToString (sha256.Sum256 b), s, r.Extension, r.rest⟩ none ∧
      (processImage u s w).trace =
        [.download s, .process rc,
          .upload (hex.EncodeToString (sha256.Sum256 b) ++ "." ++ r.Extension)
            (crc32.Update 0 crc32cTable b), .closeStream rc] ∧
      (processImage u s w).trace.countP Event.isWrite = 0 ∧
      (processImage u s w).trace.countP Event.isCloseSink = 0 ∧
      bytesWritten (processImage u s w).trace = 0 := by
  rw [processImage_downloadOk u s w w1 rc hd,
    processImage.transform_uploadNil u s rc w1 w2 w3 r b hp hu]
  exact ⟨rfl, rfl, rfl, rfl, rfl⟩

/-- Witness of C3: the second scenario of the specification, source `xyz789`
against a store that already holds the object. -/
theorem already_exists_is_success_without_write_witness :
    (scripted Script.stored).blobs.Upload
        (hex.EncodeToString (sha256.Sum256 [1, 2, 3]) ++ "." ++ "png")
        (crc32.Update 0 crc32cTable [1, 2, 3]) () = ((none, none), ()) ∧
      (processImage (scripted Script.stored) "xyz789" ()).out =
        .returned ⟨hex.EncodeToString (sha256.Sum256 [1, 2, 3]), "xyz789", "png", 7⟩ none ∧
      (processImage (scripted Script.stored) "xyz789" ()).trace.countP Event.isWrite = 0 :=
  ⟨rfl,
    (already_exists_is_success_without_write (scripted Script.stored) "xyz789" () () () ()
      ⟨1⟩ ⟨"", "", "png", 7⟩ [1, 2, 3] rfl rfl rfl).1,
    (already_exists_is_success_without_write (scripted Script.stored) "xyz789" () () () ()
      ⟨1⟩ ⟨"", "", "png", 7⟩ [1, 2, 3] rfl rfl rfl).2.2.1⟩

/-- C5: when `Process` returns an error, `Upload` is never called and no sink
is written to or closed; when `Download` returns an error, neither `Process`
nor `Upload` is called (nor is any sink touched). -/
theorem failed_fetch_or_transform_leaves_store_untouched (u : imagesProcessCommand σ ρ)
    (s : String) (w : σ) :
    (∀ (x : Option ReadCloser) (e : GoError) (w1 : σ),
      u.blobs.Download s w = ((x, some e), w1) →
        (processImage u s w).trace.countP Event.isProcess = 0 ∧
        (processImage u s w).trace.countP Event.isUpload = 0 ∧
        (processImage u s w).trace.countP Event.isWrite = 0 ∧
        (processImage u s w).trace.countP Event.isCloseSink = 0) ∧
    (∀ (rc : ReadCloser) (w1 w2 : σ) (r : Image ρ) (b : Bytes) (e : GoError),
      u.blobs.Download s w = ((some rc, none), w1) →
      u.processor.Process rc w1 = ((r, b, some e), w2) →
        (processImage u s w).trace.countP Event.isUpload = 0 ∧
        (processImage u s w).trace.countP Event.isWrite = 0 ∧
        (processImage u s w).trace.countP Event.isCloseSink = 0) := by
  constructor
  · intro x e w1 hd
    rw [processImage_downloadErr u s w w1 x e hd]
    exact ⟨rfl, rfl, rfl, rfl⟩
  · intro rc w1 w2 r b e hd hp
    rw [processImage_downloadOk u s w w1 rc hd,
      processImage.transform_processErr u s rc w1 w2 r b e hp]
    exact ⟨rfl, rfl, rfl⟩

/-- Witness of C5: a failing `Download`, and a failing `Process` after a
successful `Download`. -/
theorem failed_fetch_or_transform_leaves_store_untouched_witness :
    ((scripted Script.downloadFails).blobs.Download "abc123" ()
        = ((none, some ⟨"not found"⟩), ()) ∧
      (processImage (scripted Script.downloadFails) "abc123" ()).trace.countP Event.isProcess = 0 ∧
      (processImage (scripted Script.downloadFails) "abc123" ()).trace.countP Event.isUpload = 0) ∧
    ((scripted Script.processFails).processor.Process ⟨1⟩ ()
        = ((⟨"", "", "", 0⟩, [], some ⟨"unsupported format"⟩), ()) ∧
      (processImage (scripted Script.processFails) "abc123" ()).trace.countP Event.isUpload = 0 ∧
      (processImage (scripted Script.processFails) "abc123" ()).trace.countP Event.isWrite = 0 ∧
      (processImage (scripted Script.processFails) "abc123" ()).trace.countP Event.isCloseSink = 0) :=
  ⟨⟨rfl,
      ((failed_fetch_or_transform_leaves_store_untouched (scripted Script.downloadFails)
        "abc123" ()).1 none ⟨"not found"⟩ () rfl).1,
      ((failed_fetch_or_transform_leaves_store_untouched (scripted Script.downloadFails)
        "abc123" ()).1 none ⟨"not found"⟩ () rfl).2.1⟩,
    ⟨rfl,
      (failed_fetch_or_transform_leaves_store_untouched (scripted Script.processFails)
        "abc123" ()).2 ⟨1⟩ () () ⟨"", "", "", 0⟩ [] ⟨"unsupported format"⟩ rfl rfl⟩⟩

/-- Every invocation takes one of the six exit paths. -/
theorem processImage_exit (u : imagesProcessCommand σ ρ) (s : String) (w : σ) :
    processImage.Exit u s w (processImage u s w) := by
  rcases hD : u.blobs.Download s w with ⟨⟨x, e⟩, w1⟩
  cases e with
  | some e =>
    rw [processImage_downloadErr u s w w1 x e hD]
    exact .downloadFails x e w1 hD
  | none =>
    cases x with
    | none =>
      rw [processImage_downloadNil u s w w1 hD]
      exact .nilStream w1 hD
    | some rc =>
      rw [processImage_downloadOk u s w w1 rc hD]
      rcases hP : u.processor.Process rc w1 with ⟨⟨r, b, e⟩, w2⟩
      cases e with
      | some e =>
        rw [processImage.transform_processErr u s rc w1 w2 r b e hP]
        exact .processFails rc w1 w2 r b e hD hP
      | none =>
        rcases hU : u.blobs.Upload (hex.EncodeToString (sha256.Sum256 b) ++ "." ++ r.Extension)
          (crc32.Update 0 crc32cTable b) w2 with ⟨⟨x, e⟩, w3⟩
        cases e with
        | some e =>
          rw [processImage.transform_uploadErr u s rc w1 w2 w3 r b x e hP hU]
          exact .uploadFails rc w1 w2 w3 r b x e hD hP hU
        | none =>
          cases x with
          | none =>
            rw [processImage.transform_uploadNil u s rc w1 w2 w3 r b hP hU]
            exact .alreadyExists rc w1 w2 w3 r b hD hP hU
          | some wc =>
            rw [processImage.transform_uploadSink u s rc w1 w2 w3 r b wc hP hU]
            exact .stored rc w1 w2 w3 r b wc hD hP hU

/-- On every exit path each of the six collaborator operations is called at most once. -/
theorem processImage.Exit.at_most_once {u : imagesProcessCommand σ ρ} {s : String} {w : σ}
    {run : Run σ ρ} (h : processImage.Exit u s w run) :
    run.trace.countP Event.isDownload ≤ 1 ∧ run.trace.countP Event.isProcess ≤ 1 ∧
    run.trace.countP Event.isUpload ≤ 1 ∧ run.trace.countP Event.isWrite ≤ 1 ∧
    run.trace.countP Event.isCloseSink ≤ 1 ∧ run.trace.countP Event.isCloseStream ≤ 1 := by
  cases h <;>
    simp [List.countP_cons, Event.isDownload, Event.isProcess, Event.isUpload, Event.isWrite,
      Event.isCloseSink, Event.isCloseStream]

/-- C6: whichever of `Download`, `Process`, `Upload` and the sink's `Write` is
the first call to fail, with error `e`, `processImage` returns exactly `e`
with the zero-value record; and each collaborator operation is called at most
once in an invocation. -/
theorem first_failure_is_returned_verbatim (u : imagesProcessCommand σ ρ) (s : String) (w : σ) :
    ((processImage u s w).trace.countP Event.isDownload ≤ 1 ∧
      (processImage u s w).trace.countP Event.isProcess ≤ 1 ∧
      (processImage u s w).trace.countP Event.isUpload ≤ 1 ∧
      (processImage u s w).trace.countP Event.isWrite ≤ 1 ∧
      (processImage u s w).trace.countP Event.isCloseSink ≤ 1 ∧
      (processImage u s w).trace.countP Event.isCloseStream ≤ 1) ∧
    (∀ (x : Option ReadCloser) (e : GoError) (w1 : σ),
      u.blobs.Download s w = ((x, some e), w1) →
        (processImage u s w).out = .returned Image.zero (some e)) ∧
    (∀ (rc : ReadCloser) (w1 w2 : σ) (r : Image ρ) (b : Bytes) (e : GoError),
      u.blobs.Download s w = ((some rc, none), w1) →
      u.processor.Process rc w1 = ((r, b, some e), w2) →
        (processImage u s w).out = .returned Image.zero (some e)) ∧
    (∀ (rc : ReadCloser) (w1 w2 w3 : σ) (r : Image ρ) (b : Bytes) (x : Option WriteCloser)
      (e : GoError),
      u.blobs.Download s w = ((some rc, none), w1) →
      u.processor.Process rc w1 = ((r, b, none), w2) →
      u.blobs.Upload (hex.EncodeToString (sha256.Sum256 b) ++ "." ++ r.Extension)
        (crc32.Update 0 crc32cTable b) w2 = ((x, some e), w3) →
        (processImage u s w).out = .returned Image.zero (some e)) ∧
    (∀ (rc : ReadCloser) (w1 w2 w3 : σ) (r : Image ρ) (b : Bytes) (wc : WriteCloser)
      (e : GoError),
      u.blobs.Download s w = ((some rc, none), w1) →
      u.processor.Process rc w1 = ((r, b, none), w2) →
      u.blobs.Upload (hex.EncodeToString (sha256.Sum256 b) ++ "." ++ r.Extension)
        (crc32.Update 0 crc32cTable b) w2 = ((some wc, none), w3) →
      (u.blobs.Write wc b w3).1.2 = some e →
        (processImage u s w).out = .returned Image.zero (some e)) := by
  refine ⟨(processImage_exit u s w).at_most_once, ?_, ?_, ?_, ?_⟩
  · intro x e w1 hd
    rw [processImage_downloadErr u s w w1 x e hd]
  · intro rc w1 w2 r b e hd hp
    rw [processImage_downloadOk u s w w1 rc hd,
      processImage.transform_processErr u s rc w1 w2 r b e hp]
  · intro rc w1 w2 w3 r b x e hd hp hu
    rw [processImage_downloadOk u s w w1 rc hd,
      processImage.transform_uploadErr u s rc w1 w2 w3 r b x e hp hu]
  · intro rc w1 w2 w3 r b wc e hd hp hu hw
    rw [processImage_downloadOk u s w w1 rc hd,
      processImage.transform_uploadSink u s rc w1 w2 w3 r b wc hp hu]
    exact processImage.store_out_err u _ b wc w3 e hw

/-- Witness of C6: one script for each of the four calls failing first. -/
theorem first_failure_is_returned_verbatim_witness :
    (processImage (scripted Script.downloadFails) "abc123" ()).out
        = .returned Image.zero (some ⟨"not found"⟩) ∧
    (processImage (scripted Script.processFails) "abc123" ()).out
        = .returned Image.zero (some ⟨"unsupported format"⟩) ∧
    (processImage (scripted Script.uploadFails) "abc123" ()).out
        = .returned Image.zero (some ⟨"store unavailable"⟩) ∧
    ((scripted Script.writeFails).blobs.Write ⟨2⟩ [1, 2, 3] () = ((0, some ⟨"disk full"⟩), ()) ∧
      (processImage (scripted Script.writeFails) "abc123" ()).out
        = .returned Image.zero (some ⟨"disk full"⟩) ∧
      (processImage (scripted Script.writeFails) "abc123" ()).trace.countP Event.isWrite ≤ 1) :=
  ⟨(first_failure_is_returned_verbatim (scripted Script.downloadFails) "abc123" ()).2.1
      none ⟨"not found"⟩ () rfl,
    (first_failure_is_returned_verbatim (scripted Script.processFails) "abc123" ()).2.2.1
      ⟨1⟩ () () ⟨"", "", "", 0⟩ [] ⟨"unsupported format"⟩ rfl rfl,
    (first_failure_is_returned_verbatim (scripted Script.uploadFails) "abc123" ()).2.2.2.1
      ⟨1⟩ () () () ⟨"", "", "png", 7⟩ [1, 2, 3] none ⟨"store unavailable"⟩ rfl rfl rfl,
    rfl,
    (first_failure_is_returned_verbatim (scripted Script.writeFails) "abc123" ()).2.2.2.2
      ⟨1⟩ () () () ⟨"", "", "png", 7⟩ [1, 2, 3] ⟨2⟩ ⟨"disk full"⟩ rfl rfl rfl rfl,
    (first_failure_is_returned_verbatim (scripted Script.writeFails) "abc123" ()).1.2.2.2.1⟩

/-- On every exit path, a stream is closed only if `Download` returned it with
a nil error, and a sink is closed only if `Upload` returned it with a nil error. -/
theorem processImage.Exit.closes_only_acquired {u : imagesProcessCommand σ ρ} {s : String}
    {w : σ} {run : Run σ ρ} (h : processImage.Exit u s w run) :
    (∀ rc, Event.closeStream rc ∈ run.trace →
      ∃ w1, u.blobs.Download s w = ((some rc, none), w1)) ∧
    (∀ wc, Event.closeSink wc ∈ run.trace →
      ∃ rc w1 w2 w3 r b,
        u.blobs.Download s w = ((some rc, none), w1) ∧
        u.processor.Process rc w1 = ((r, b, none), w2) ∧
        u.blobs.Upload (hex.EncodeToString (sha256.Sum256 b) ++ "." ++ r.Extension)
          (crc32.Update 0 crc32cTable b) w2 = ((some wc, none), w3)) := by
  cases h with
  | downloadFails x e w1 hd => constructor <;> intro c hc <;> simp at hc
  | nilStream w1 hd => constructor <;> intro c hc <;> simp at hc
  | processFails rc w1 w2 r b e hd hp =>
    constructor <;> intro c hc <;> simp at hc
    subst hc
    exact ⟨w1, hd⟩
  | uploadFails rc w1 w2 w3 r b x e hd hp hu =>
    constructor <;> intro c hc <;> simp at hc
    subst hc
    exact ⟨w1, hd⟩
  | alreadyExists rc w1 w2 w3 r b hd hp hu =>
    constructor <;> intro c hc <;> simp at hc
    subst hc
    exact ⟨w1, hd⟩
  | stored rc w1 w2 w3 r b wc hd hp hu =>
    constructor <;> intro c hc <;> simp at hc
    · subst hc
      exact ⟨w1, hd⟩
    · subst hc
      exact ⟨rc, w1, w2, w3, r, b, hd, hp, hu⟩

/-- On every exit path on which `Download` returned the stream `rc` with a nil
error, the stream is closed once, as the last call of the invocation. -/
theorem processImage.Exit.stream_closed_once {u : imagesProcessCommand σ ρ} {s : String}
    {w w1 : σ} {run : Run σ ρ} {rc : ReadCloser} (h : processImage.Exit u s w run)
    (hd : u.blobs.Download s w = ((some rc, none), w1)) :
    run.trace.count (Event.closeStream rc) = 1 ∧
    run.trace.countP Event.isCloseStream = 1 ∧
    run.trace.getLast? = some (Event.closeStream rc) := by
  cases h with
  | downloadFails x e w1 hd2 => rw [hd] at hd2; simp at hd2
  | nilStream w1 hd2 => rw [hd] at hd2; simp at hd2
  | processFails rc2 w1 w2 r b e hd2 hp =>
    rw [hd] at hd2
    simp only [Prod.mk.injEq, Option.some.injEq, and_true, true_and] at hd2
    obtain ⟨h1, -⟩ := hd2
    subst h1
    simp [List.count_cons, List.countP_cons, Event.isCloseStream]
  | uploadFails rc2 w1 w2 w3 r b x e hd2 hp hu =>
    rw [hd] at hd2
    simp only [Prod.mk.injEq, Option.some.injEq, and_true, true_and] at hd2
    obtain ⟨h1, -⟩ := hd2
    subst h1
    simp [List.count_cons, List.countP_cons, Event.isCloseStream]
  | alreadyExists rc2 w1 w2 w3 r b hd2 hp hu =>
    rw [hd] at hd2
    simp only [Prod.mk.injEq, Option.some.injEq, and_true, true_and] at hd2
    obtain ⟨h1, -⟩ := hd2
    subst h1
    simp [List.count_cons, List.countP_cons, Event.isCloseStream]
  | stored rc2 w1 w2 w3 r b wc hd2 hp hu =>
    rw [hd] at hd2
    simp only [Prod.mk.injEq, Option.some.injEq, and_true, true_and] at hd2
    obtain ⟨h1, -⟩ := hd2
    subst h1
    simp [List.count_cons, List.countP_cons, Event.isCloseStream]

/-- C8: a stream returned by a successful `Download` is closed exactly once,
as the last call before `processImage` returns, whatever happens after the
download; a sink returned by `Upload` with a nil error is closed exactly once,
after the one `Write`, whether the `Write` succeeds or fails; and nothing is
closed that was not acquired: every stream or sink that is closed is the one
`Download` or `Upload` returned with a nil error. -/
theorem streams_and_sinks_closed_exactly_once (u : imagesProcessCommand σ ρ) (s : String)
    (w : σ) :
    (∀ (rc : ReadCloser) (w1 : σ),
      u.blobs.Download s w = ((some rc, none), w1) →
        (processImage u s w).trace.count (Event.closeStream rc) = 1 ∧
        (processImage u s w).trace.countP Event.isCloseStream = 1 ∧
        (processImage u s w).trace.getLast? = some (Event.closeStream rc)) ∧
    (∀ (rc : ReadCloser) (w1 w2 w3 : σ) (r : Image ρ) (b : Bytes) (wc : WriteCloser),
      u.blobs.Download s w = ((some rc, none), w1) →
      u.processor.Process rc w1 = ((r, b, none), w2) →
      u.blobs.Upload (hex.EncodeToString (sha256.Sum256 b) ++ "." ++ r.Extension)
        (crc32.Update 0 crc32cTable b) w2 = ((some wc, none), w3) →
        (processImage u s w).trace.count (Event.closeSink wc) = 1 ∧
        (processImage u s w).trace.countP Event.isCloseSink = 1 ∧
        (processImage u s w).trace =
          [.download s, .process rc,
            .upload (hex.EncodeToString (sha256.Sum256 b) ++ "." ++ r.Extension)
              (crc32.Update 0 crc32cTable b), .write wc b, .closeSink wc, .closeStream rc]) ∧
    (∀ rc, Event.closeStream rc ∈ (processImage u s w).trace →
      ∃ w1, u.blobs.Download s w = ((some rc, none), w1)) ∧
    (∀ wc, Event.closeSink wc ∈ (processImage u s w).trace →
      ∃ rc w1 w2 w3 r b,
        u.blobs.Download s w = ((some rc, none), w1) ∧
        u.processor.Process rc w1 = ((r, b, none), w2) ∧
        u.blobs.Upload (hex.EncodeToString (sha256.Sum256 b) ++ "." ++ r.Extension)
          (crc32.Update 0 crc32cTable b) w2 = ((some wc, none), w3)) := by
  refine ⟨?_, ?_, (processImage_exit u s w).closes_only_acquired.1,
    (processImage_exit u s w).closes_only_acquired.2⟩
  · intro rc w1 hd
    exact (processImage_exit u s w).stream_closed_once hd
  · intro rc w1 w2 w3 r b wc hd hp hu
    rw [processImage_downloadOk u s w w1 rc hd,
      processImage.transform_uploadSink u s rc w1 w2 w3 r b wc hp hu]
    simp [List.count_cons, List.countP_cons, Event.isCloseSink]

/-- Witness of C8: the stream is closed once when `Process` fails, and the
sink and the stream are each closed once when `Write` fails. -/
theorem streams_and_sinks_closed_exactly_once_witness :
    ((scripted Script.processFails).blobs.Download "abc123" () = ((some ⟨1⟩, none), ()) ∧
      (processImage (scripted Script.processFails) "abc123" ()).trace.count
        (Event.closeStream ⟨1⟩) = 1) ∧
    ((scripted Script.writeFails).blobs.Upload
        (hex.EncodeToString (sha256.Sum256 [1, 2, 3]) ++ "." ++ "png")
        (crc32.Update 0 crc32cTable [1, 2, 3]) () = ((some ⟨2⟩, none), ()) ∧
      (processImage (scripted Script.writeFails) "abc123" ()).trace.count
        (Event.closeSink ⟨2⟩) = 1 ∧
      (processImage (scripted Script.writeFails) "abc123" ()).trace.count
        (Event.closeStream ⟨1⟩) = 1) :=
  ⟨⟨rfl, ((streams_and_sinks_closed_exactly_once (scripted Script.processFails)
      "abc123" ()).1 ⟨1⟩ () rfl).1⟩,
    ⟨rfl,
      ((streams_and_sinks_closed_exactly_once (scripted Script.writeFails) "abc123" ()).2.1
        ⟨1⟩ () () () ⟨"", "", "png", 7⟩ [1, 2, 3] ⟨2⟩ rfl rfl rfl).1,
      ((streams_and_sinks_closed_exactly_once (scripted Script.writeFails) "abc123" ()).1
        ⟨1⟩ () rfl).1⟩⟩

/-- Counterexample to C7 as stated: `Upload` returns a sink, the `Write`
succeeds and the sink's `Close` fails, yet `processImage` returns a nil error
with the completed record; the result of the deferred `wc.Close()` is dropped. -/
theorem close_failure_is_not_reported :
    (scripted Script.closeFails).blobs.Upload
        (hex.EncodeToString (sha256.Sum256 [1, 2, 3]) ++ "." ++ "png")
        (crc32.Update 0 crc32cTable [1, 2, 3]) () = ((some ⟨2⟩, none), ()) ∧
    (scripted Script.closeFails).blobs.CloseSink ⟨2⟩ () = (some ⟨"commit failed"⟩, ()) ∧
    Event.closeSink ⟨2⟩ ∈ (processImage (scripted Script.closeFails) "abc123" ()).trace ∧
    (processImage (scripted Script.closeFails) "abc123" ()).out =
      .returned ⟨hex.EncodeToString (sha256.Sum256 [1, 2, 3]), "abc123", "png", 7⟩ none := by
  have h := processImage_downloadOk (scripted Script.closeFails) "abc123" () () ⟨1⟩ rfl
  have ht := processImage.transform_uploadSink (scripted Script.closeFails) "abc123" ⟨1⟩
    () () () ⟨"", "", "png", 7⟩ [1, 2, 3] ⟨2⟩ rfl rfl
  rw [ht] at h
  refine ⟨rfl, rfl, ?_, ?_⟩
  · rw [h]
    simp
  · rw [h]
    exact processImage.store_out_ok (scripted Script.closeFails) _ [1, 2, 3] ⟨2⟩ () rfl

/-- C7, amended: when `Upload` returns a sink with a nil error, `processImage`
calls `Write` once on that sink with the full payload `b`, then `Close` once
on it, then closes the stream; it returns a nil error (with the completed
record) exactly when that `Write` returns a nil error, and when the `Write`
fails with `e` it returns `e` with the zero record. The result of `Close` has
no part in the return value. -/
theorem sink_written_then_closed_write_error_reported (u : imagesProcessCommand σ ρ)
    (s : String) (w w1 w2 w3 : σ) (rc : ReadCloser) (r : Image ρ) (b : Bytes)
    (wc : WriteCloser)
    (hd : u.blobs.Download s w = ((some rc, none), w1))
    (hp : u.processor.Process rc w1 = ((r, b, none), w2))
    (hu : u.blobs.Upload (hex.EncodeToString (sha256.Sum256 b) ++ "." ++ r.Extension)
      (crc32.Update 0 crc32cTable b) w2 = ((some wc, none), w3)) :
    (processImage u s w).trace =
        [.download s, .process rc,
          .upload (hex.EncodeToString (sha256.Sum256 b) ++ "." ++ r.Extension)
            (crc32.Update 0 crc32cTable b), .write wc b, .closeSink wc, .closeStream rc] ∧
    ((u.blobs.Write wc b w3).1.2 = none →
      (processImage u s w).out =
        .returned ⟨hex.EncodeToString (sha256.Sum256 b), s, r.Extension, r.rest⟩ none) ∧
    (∀ e, (u.blobs.Write wc b w3).1.2 = some e →
      (processImage u s w).out = .returned Image.zero (some e)) ∧
    ((∃ img, (processImage u s w).out = .returned img none) →
      (u.blobs.Write wc b w3).1.2 = none) := by
  rw [processImage_downloadOk u s w w1 rc hd,
    processImage.transform_uploadSink u s rc w1 w2 w3 r b wc hp hu]
  refine ⟨rfl, ?_, ?_, ?_⟩
  · intro hw
    exact processImage.store_out_ok u _ b wc w3 hw
  · intro e hw
    exact processImage.store_out_err u _ b wc w3 e hw
  · rintro ⟨img, himg⟩
    cases hw : (u.blobs.Write wc b w3).1.2 with
    | none => rfl
    | some e =>
      have h2 := processImage.store_out_err u
        ⟨hex.EncodeToString (sha256.Sum256 b), s, r.Extension, r.rest⟩ b wc w3 e hw
      simp only [h2] at himg
      cases himg

/-- Witness of the amended C7: a failing `Write` is reported, and a failing
`Close` after a successful `Write` is not. -/
theorem sink_written_then_closed_write_error_reported_witness :
    ((scripted Script.writeFails).blobs.Write ⟨2⟩ [1, 2, 3] () = ((0, some ⟨"disk full"⟩), ()) ∧
      (processImage (scripted Script.writeFails) "abc123" ()).out =
        .returned Image.zero (some ⟨"disk full"⟩)) ∧
    ((scripted Script.closeFails).blobs.Write ⟨2⟩ [1, 2, 3] () = ((3, none), ()) ∧
      (processImage (scripted Script.closeFails) "abc123" ()).out =
        .returned ⟨hex.EncodeToString (sha256.Sum256 [1, 2, 3]), "abc123", "png", 7⟩ none) :=
  ⟨⟨rfl, (sink_written_then_closed_write_error_reported (scripted Script.writeFails) "abc123"
      () () () () ⟨1⟩ ⟨"", "", "png", 7⟩ [1, 2, 3] ⟨2⟩ rfl rfl rfl).2.2.1 ⟨"disk full"⟩ rfl⟩,
    ⟨rfl, (sink_written_then_closed_write_error_reported (scripted Script.closeFails) "abc123"
      () () () () ⟨1⟩ ⟨"", "", "png", 7⟩ [1, 2, 3] ⟨2⟩ rfl rfl rfl).2.1 rfl⟩⟩

/-- The table-driven checksum of the model is CRC-32C: on the ASCII digits
`123456789` it gives the check value `0xE3069283` of the Castagnoli CRC. -/
theorem crc32.castagnoli_check_value :
    crc32.Update 0 crc32cTable [49, 50, 51, 52, 53, 54, 55, 56, 57] = 0xE3069283 := by
  decide!

/-- The digest of the model is SHA-256: on the ASCII bytes of `abc` it gives
the FIPS 180-4 test vector. -/
theorem sha256.abc_test_vector :
    hex.EncodeToString (sha256.Sum256 [97, 98, 99]) =
      "ba7816bf8f01cfea414140de5dae2223b00361a396177a9cb410ff61f20015ad" := by
  decide!

/-- C9: in an invocation that reaches the store step with output bytes `b`,
the checksum passed to `Upload` is the CRC-32 of `b` over the Castagnoli
table, a value below `2^32`: decoding the four bytes of `crc.Sum(nil)` as a
big-endian `uint32` gives back exactly `crc.Sum32()`, which is that checksum;
it is computed over the same bytes `b` as the digest in the key; and it is the
bit-serial reflected CRC-32 of `b` for the Castagnoli polynomial `0x82f63b78`. -/
theorem upload_checksum_is_crc32c (u : imagesProcessCommand σ ρ) (s : String)
    (w w1 w2 : σ) (rc : ReadCloser) (r : Image ρ) (b : Bytes)
    (hd : u.blobs.Download s w = ((some rc, none), w1))
    (hp : u.processor.Process rc w1 = ((r, b, none), w2)) :
    uploadSums (processImage u s w).trace = [crc32.Update 0 crc32cTable b] ∧
    uploadKeys (processImage u s w).trace =
      [hex.EncodeToString (sha256.Sum256 b) ++ "." ++ r.Extension] ∧
    binary.BigEndian.Uint32 (((crc32.New crc32cTable).Write b).1.Sum []) =
      some (((crc32.New crc32cTable).Write b).1.Sum32) ∧
    ((crc32.New crc32cTable).Write b).1.Sum32 = crc32.Update 0 crc32cTable b ∧
    crc32.Update 0 crc32cTable b < 2 ^ 32 ∧
    crc32.Update 0 crc32cTable b = crc32.bitSerial 0x82f63b78 b := by
  have hup := processImage_uploads u s w w1 w2 rc r b hd hp
  have hlt := crc32.Update_lt 0 crc32cTable b
  have h32 : ((crc32.New crc32cTable).Write b).1.Sum32 = crc32.Update 0 crc32cTable b := by
    rw [crc32.crc_Write_New, crc32.Sum32_mk _ _ hlt]
  refine ⟨hup.2, hup.1, ?_, h32, hlt, crc32.Update_crc32cTable b⟩
  rw [h32, crc32.crc_Write_New]
  exact crc32.Uint32_Sum crc32cTable b

/-- Witness of C9 on the all-succeeding script with payload `[1, 2, 3]`. -/
theorem upload_checksum_is_crc32c_witness :
    (scripted Script.fresh).processor.Process ⟨1⟩ () = ((⟨"", "", "png", 7⟩, [1, 2, 3], none), ()) ∧
    uploadSums (processImage (scripted Script.fresh) "abc123" ()).trace =
      [crc32.Update 0 crc32cTable [1, 2, 3]] ∧
    binary.BigEndian.Uint32 (((crc32.New crc32cTable).Write [1, 2, 3]).1.Sum []) =
      some (((crc32.New crc32cTable).Write [1, 2, 3]).1.Sum32) :=
  ⟨rfl,
    (upload_checksum_is_crc32c (scripted Script.fresh) "abc123" () () () ⟨1⟩
      ⟨"", "", "png", 7⟩ [1, 2, 3] rfl rfl).1,
    (upload_checksum_is_crc32c (scripted Script.fresh) "abc123" () () () ⟨1⟩
      ⟨"", "", "png", 7⟩ [1, 2, 3] rfl rfl).2.2.1⟩

/-- The whole run on the path where `Upload` hands out a sink. -/
theorem processImage_stored (u : imagesProcessCommand σ ρ) (s : String) (w w1 w2 w3 : σ)
    (rc : ReadCloser) (r : Image ρ) (b : Bytes) (wc : WriteCloser)
    (hd : u.blobs.Download s w = ((some rc, none), w1))
    (hp : u.processor.Process rc w1 = ((r, b, none), w2))
    (hu : u.blobs.Upload (hex.EncodeToString (sha256.Sum256 b) ++ "." ++ r.Extension)
      (crc32.Update 0 crc32cTable b) w2 = ((some wc, none), w3)) :
    processImage u s w =
      ⟨(processImage.store u
          ⟨hex.EncodeToString (sha256.Sum256 b), s, r.Extension, r.rest⟩ b wc w3).out,
        [.download s, .process rc,
          .upload (hex.EncodeToString (sha256.Sum256 b) ++ "." ++ r.Extension)
            (crc32.Update 0 crc32cTable b), .write wc b, .closeSink wc, .closeStream rc],
        (u.blobs.CloseStream rc (u.blobs.CloseSink wc (u.blobs.Write wc b w3).2).2).2⟩ := by
  rw [processImage_downloadOk u s w w1 rc hd,
    processImage.transform_uploadSink u s rc w1 w2 w3 r b wc hp hu]
  rfl

/-- The whole run on the path where `Upload` reports that the object exists. -/
theorem processImage_alreadyExists (u : imagesProcessCommand σ ρ) (s : String) (w w1 w2 w3 : σ)
    (rc : ReadCloser) (r : Image ρ) (b : Bytes)
    (hd : u.blobs.Download s w = ((some rc, none), w1))
    (hp : u.processor.Process rc w1 = ((r, b, none), w2))
    (hu : u.blobs.Upload (hex.EncodeToString (sha256.Sum256 b) ++ "." ++ r.Extension)
      (crc32.Update 0 crc32cTable b) w2 = ((none, none), w3)) :
    processImage u s w =
      ⟨.returned ⟨hex.EncodeToString (sha256.Sum256 b), s, r.Extension, r.rest⟩ none,
        [.download s, .process rc,
          .upload (hex.EncodeToString (sha256.Sum256 b) ++ "." ++ r.Extension)
            (crc32.Update 0 crc32cTable b), .closeStream rc],
        (u.blobs.CloseStream rc w3).2⟩ := by
  rw [processImage_downloadOk u s w w1 rc hd,
    processImage.transform_uploadNil u s rc w1 w2 w3 r b hp hu]
  rfl

theorem ModelStore.Upload_absent (key : String) (crc : Nat) (st : ModelStore)
    (h : st.has key = false) :
    ModelStore.Upload key crc st =
      ((some ⟨st.next⟩, none),
        ⟨st.objects, ⟨st.next, key, none⟩ :: st.sinks, st.next + 1⟩) := by
  simp only [ModelStore.Upload, h, Bool.false_eq_true, if_false]

theorem ModelStore.Upload_present (key : String) (crc : Nat) (st : ModelStore)
    (h : st.has key = true) :
    ModelStore.Upload key crc st = ((none, none), st) := by
  simp only [ModelStore.Upload, h, if_true]

theorem ModelStore.Write_newest (n m : Nat) (key : String) (b : Bytes)
    (objects : List (String × Bytes)) (sinks : List OpenSink) :
    ModelStore.Write ⟨n⟩ b ⟨objects, ⟨n, key, none⟩ :: sinks, m⟩ =
      ((b.length, none), ⟨objects, ⟨n, key, some b⟩ :: sinks, m⟩) := by
  simp [ModelStore.Write, ModelStore.buffer]

theorem ModelStore.CloseSink_newest (n m : Nat) (key : String) (payload : Bytes)
    (objects : List (String × Bytes)) (sinks : List OpenSink) :
    ModelStore.CloseSink ⟨n⟩ ⟨objects, ⟨n, key, some payload⟩ :: sinks, m⟩ =
      (none, ⟨(key, payload) :: objects, sinks, m⟩) := by
  simp [ModelStore.CloseSink, ModelStore.release]

theorem ModelStore.has_committed (key : String) (payload : Bytes)
    (objects : List (String × Bytes)) (sinks : List OpenSink) (m : Nat) :
    ModelStore.has ⟨(key, payload) :: objects, sinks, m⟩ key = true := by
  simp [ModelStore.has]

/-- C4: over the model store, for source references `s1` and `s2` (distinct or
not) whose transformations yield the same output bytes and the same extension,
running `processImage(s1)` and then `processImage(s2)` from a store that holds
no object under the key gives two successful completions with the same digest
and the provenance of each source, the same `Upload` key in both, one sink
`Write` in the first invocation and none in the second, and exactly one object
committed under the key. -/
theorem same_content_is_stored_once (fetch : String → ReadCloser)
    (transform : ReadCloser → Image ρ × Bytes) (s1 s2 : String) (st : ModelStore)
    (hb : (transform (fetch s2)).2 = (transform (fetch s1)).2)
    (hext : (transform (fetch s2)).1.Extension = (transform (fetch s1)).1.Extension)
    (hfree : st.has (hex.EncodeToString (sha256.Sum256 (transform (fetch s1)).2) ++ "." ++
      (transform (fetch s1)).1.Extension) = false) :
    (processImage (modelCommand fetch transform) s1 st).out =
      .returned ⟨hex.EncodeToString (sha256.Sum256 (transform (fetch s1)).2), s1,
        (transform (fetch s1)).1.Extension, (transform (fetch s1)).1.rest⟩ none ∧
    (processImage (modelCommand fetch transform) s2
        (processImage (modelCommand fetch transform) s1 st).world).out =
      .returned ⟨hex.EncodeToString (sha256.Sum256 (transform (fetch s1)).2), s2,
        (transform (fetch s1)).1.Extension, (transform (fetch s2)).1.rest⟩ none ∧
    uploadKeys (processImage (modelCommand fetch transform) s1 st).trace =
      [hex.EncodeToString (sha256.Sum256 (transform (fetch s1)).2) ++ "." ++
        (transform (fetch s1)).1.Extension] ∧
    uploadKeys (processImage (modelCommand fetch transform) s2
        (processImage (modelCommand fetch transform) s1 st).world).trace =
      uploadKeys (processImage (modelCommand fetch transform) s1 st).trace ∧
    (processImage (modelCommand fetch transform) s1 st).trace.countP Event.isWrite = 1 ∧
    (processImage (modelCommand fetch transform) s2
        (processImage (modelCommand fetch transform) s1 st).world).trace.countP
      Event.isWrite = 0 ∧
    (processImage (modelCommand fetch transform) s2
        (processImage (modelCommand fetch transform) s1 st).world).world.objects =
      (hex.EncodeToString (sha256.Sum256 (transform (fetch s1)).2) ++ "." ++
        (transform (fetch s1)).1.Extension, (transform (fetch s1)).2) :: st.objects := by
  have hu1 := ModelStore.Upload_absent _ (crc32.Update 0 crc32cTable (transform (fetch s1)).2)
    st hfree
  have run1 := processImage_stored (modelCommand fetch transform) s1 st st st _
    (fetch s1) (transform (fetch s1)).1 (transform (fetch s1)).2 ⟨st.next⟩ rfl rfl hu1
  have hw1 := ModelStore.Write_newest st.next (st.next + 1)
    (hex.EncodeToString (sha256.Sum256 (transform (fetch s1)).2) ++ "." ++
      (transform (fetch s1)).1.Extension) (transform (fetch s1)).2 st.objects st.sinks
  have hc1 := ModelStore.CloseSink_newest st.next (st.next + 1)
    (hex.EncodeToString (sha256.Sum256 (transform (fetch s1)).2) ++ "." ++
      (transform (fetch s1)).1.Extension) (transform (fetch s1)).2 st.objects st.sinks
  have hout1 := processImage.store_out_ok (modelCommand fetch transform)
    ⟨hex.EncodeToString (sha256.Sum256 (transform (fetch s1)).2), s1,
      (transform (fetch s1)).1.Extension, (transform (fetch s1)).1.rest⟩
    (transform (fetch s1)).2 ⟨st.next⟩
    ⟨st.objects, ⟨st.next, hex.EncodeToString (sha256.Sum256 (transform (fetch s1)).2) ++ "." ++
      (transform (fetch s1)).1.Extension, none⟩ :: st.sinks, st.next + 1⟩
    (by show (ModelStore.Write _ _ _).1.2 = none; rw [hw1])
  have hworld1 : (processImage (modelCommand fetch transform) s1 st).world =
      ⟨(hex.EncodeToString (sha256.Sum256 (transform (fetch s1)).2) ++ "." ++
        (transform (fetch s1)).1.Extension, (transform (fetch s1)).2) :: st.objects,
        st.sinks, st.next + 1⟩ := by
    rw [run1]
    show (ModelStore.CloseSink _ (ModelStore.Write _ _ _).2).2 = _
    rw [hw1, hc1]
  have hu2 := ModelStore.Upload_present
    (hex.EncodeToString (sha256.Sum256 (transform (fetch s1)).2) ++ "." ++
      (transform (fetch s1)).1.Extension)
    (crc32.Update 0 crc32cTable (transform (fetch s1)).2)
    ⟨(hex.EncodeToString (sha256.Sum256 (transform (fetch s1)).2) ++ "." ++
        (transform (fetch s1)).1.Extension, (transform (fetch s1)).2) :: st.objects,
      st.sinks, st.next + 1⟩ (ModelStore.has_committed _ _ _ _ _)
  have hp2 : (modelCommand fetch transform).processor.Process (fetch s2)
      (processImage (modelCommand fetch transform) s1 st).world =
      (((⟨(transform (fetch s2)).1.SHA256, (transform (fetch s2)).1.SourceSHA256,
        (transform (fetch s1)).1.Extension, (transform (fetch s2)).1.rest⟩ : Image ρ),
        (transform (fetch s1)).2, none),
        (processImage (modelCommand fetch transform) s1 st).world) := by
    show (((transform (fetch s2)).1, (transform (fetch s2)).2, none), _) = _
    rw [hb, ← hext]
  have run2 := processImage_alreadyExists (modelCommand fetch transform) s2
    (processImage (modelCommand fetch transform) s1 st).world
    (processImage (modelCommand fetch transform) s1 st).world
    (processImage (modelCommand fetch transform) s1 st).world
    (processImage (modelCommand fetch transform) s1 st).world
    (fetch s2) _ (transform (fetch s1)).2 rfl hp2 (by rw [hworld1]; exact hu2)
  rw [run2]
  refine ⟨?_, rfl, ?_, ?_, ?_, rfl, ?_⟩
  · rw [run1]; exact hout1
  · rw [run1]; rfl
  · rw [run1]; rfl
  · rw [run1]; rfl
  · show (processImage (modelCommand fetch transform) s1 st).world.objects = _
    rw [hworld1]

/-- Witness of C4: sources `abc123` and `xyz789` that both transform to the
`png` payload `[1, 2, 3]`, from the empty store. -/
theorem same_content_is_stored_once_witness :
    ModelStore.has ⟨[], [], 0⟩
        (hex.EncodeToString (sha256.Sum256 [1, 2, 3]) ++ "." ++ "png") = false ∧
    (processImage (modelCommand (fun s => ⟨s.length⟩)
        (fun rc => ((⟨"", "", "png", rc.id⟩ : Image Nat), [1, 2, 3]))) "abc123"
      ⟨[], [], 0⟩).trace.countP Event.isWrite = 1 ∧
    (processImage (modelCommand (fun s => ⟨s.length⟩)
        (fun rc => ((⟨"", "", "png", rc.id⟩ : Image Nat), [1, 2, 3]))) "xyz789"
      (processImage (modelCommand (fun s => ⟨s.length⟩)
        (fun rc => ((⟨"", "", "png", rc.id⟩ : Image Nat), [1, 2, 3]))) "abc123"
      ⟨[], [], 0⟩).world).trace.countP Event.isWrite = 0 :=
  ⟨rfl,
    (same_content_is_stored_once (fun s => ⟨s.length⟩)
      (fun rc => ((⟨"", "", "png", rc.id⟩ : Image Nat), [1, 2, 3])) "abc123" "xyz789"
      ⟨[], [], 0⟩ rfl rfl rfl).2.2.2.2.1,
    (same_content_is_stored_once (fun s => ⟨s.length⟩)
      (fun rc => ((⟨"", "", "png", rc.id⟩ : Image Nat), [1, 2, 3])) "abc123" "xyz789"
      ⟨[], [], 0⟩ rfl rfl rfl).2.2.2.2.2.1⟩

/-- A page is searched only after its items were appended: the first page
fetched is always taken whole, and the search for `curVersion` runs over the
items of the earlier pages. With no next page, every item of the first page is
returned, whether or not `curVersion` is among them. -/
theorem getVersionsSince_single_page (fetchFeed : String → Except GoError feed)
    (fuel : Nat) (curVersion url : String) (f : feed)
    (hf : fetchFeed url = .ok f) (hlast : f.NextURL = "") :
    getVersionsSince fetchFeed (fuel + 1) curVersion url = (.returned f.Items.elems, [url]) := by
  simp [getVersionsSince, getVersionsSince.loop, hf, getVersionsSince.find, hlast]

/-- C10 fails on the code: on the one-page feed `v1.1.0, v1.0.0` with current
version `v1.1.0` the call returns both items, so the last element is the item
of `v1.0.0` and not the item of the current version; and on the two-page feed
with current version `v1.1.0` in the first page the call goes on to fetch the
second page and panics on `f.Items[:found+1]`, instead of returning
`v1.2.0, v1.1.0` without fetching `p2`. -/
theorem getVersionsSince_searches_the_wrong_list :
    getVersionsSince onePageFeed 8 "v1.1.0" "feed" =
      (.returned [release "v1.1.0", release "v1.0.0"], ["feed"]) ∧
    ([release "v1.1.0", release "v1.0.0"].getLast?.map fun i => i.ImpracticalUpdates.Version)
      = some "v1.0.0" ∧
    getVersionsSince twoPageFeed 8 "v1.1.0" "p1" = (.panicked, ["p1", "p2"]) := by
  decide

end claims

end Tanglesd
